import Mathlib

/-!
# a1fs: a shallow embedding of the driver (`a1fs.c`, `helper.c`)

The mounted image is modelled region by region, as the driver addresses it:

* the superblock counters the driver reads and writes;
* the two bitmaps, as byte arrays (`Nat → Nat`, one byte per index), with the
  MSB-first bit arithmetic of `helper.c` on the bytes;
* the inode table, as a map from inode index to the inode record;
* the data region, as raw bytes addressed by their offset from
  `s_first_data_block`.  Extent records and directory entries are read from and
  written to those bytes, so that everything stored in a data block (extent
  lists, directory entries, file contents) shares one memory, as in the image.

C loops become structural recursions on the number of iterations left.  A
result of type `Option` is `none` when the C code has no defined behaviour on
the input (it reads an uninitialised variable, runs off the data region, or
runs off the array of free runs), or when it writes below the data region,
into the inode table, which this model keeps apart.
-/

namespace A1fs

/-! ## Constants -/

/-- Modelled from the spec: the header `a1fs.h` is not among the sources; the
spec fixes the block size `B = 4096` that it defines as `A1FS_BLOCK_SIZE`. -/
def A1FS_BLOCK_SIZE : Nat := 4096

/-- Modelled from the spec: `sizeof(a1fs_extent)`, declared in the missing
header `a1fs.h`.  The spec describes an extent as the pair `(start, count)` of
little-endian fixed-width fields; they are taken to be two 32-bit words. -/
def sizeof_extent : Nat := 8

/-- Modelled from the spec: `A1FS_NAME_MAX`, declared in the missing header
`a1fs.h`: the length of the `name` field of a directory entry. -/
def A1FS_NAME_MAX : Nat := 252

/-- Modelled from the spec: `sizeof(a1fs_dentry)`, declared in the missing
header `a1fs.h`.  The spec describes an entry as the fixed-size record
`(name, inode_index)`; it is taken to be a 32-bit inode index followed by the
`A1FS_NAME_MAX` bytes of the name. -/
def sizeof_dentry : Nat := 4 + A1FS_NAME_MAX

/-- Modelled from the spec: `A1FS_PATH_MAX`, declared in the missing header
`a1fs.h`; the spec calls it the path limit `PATH_MAX`. -/
def A1FS_PATH_MAX : Nat := 4096

/-- The value of `PATH_MAX` in `limits.h`. -/
def PATH_MAX : Nat := 4096

def ENOENT : Int := 2
def ENOMEM : Int := 12
def ENOTDIR : Int := 20
def ENOSPC : Int := 28
def ENAMETOOLONG : Int := 36
def ENOTEMPTY : Int := 39

def S_IFMT : Nat := 0o170000
def S_IFDIR : Nat := 0o040000
def S_IFREG : Nat := 0o100000

/-! ## Records -/

structure timespec where
  tv_sec : Int
  tv_nsec : Int
  deriving DecidableEq, Repr

/-- Modelled from the spec: `struct a1fs_inode`, declared in the missing header
`a1fs.h`, with the fields the spec lists and the driver uses.  `links` is
taken to be a 32-bit and `size` a 64-bit unsigned field. -/
structure a1fs_inode where
  mode : Nat
  links : Nat
  size : Nat
  mtime : timespec
  extend_pt : Nat
  extent_used : Nat
  deriving DecidableEq, Repr

structure a1fs_extent where
  start : Nat
  count : Nat
  deriving DecidableEq, Repr

/-- Modelled from the spec: the fields of `struct a1fs_superblock` (missing
header `a1fs.h`) that the driver uses as counters.  The region offsets
(`inode_bitmap_pt`, `data_bitmap_pt`, `s_first_inode`, `s_first_data_block`)
are the regions of `Image` themselves. -/
structure a1fs_superblock where
  s_inodes_count : Nat
  datablocks_count : Nat
  inodes_usd : Nat
  blocks_usd : Nat
  deriving DecidableEq, Repr

abbrev Bitmap := Nat → Nat
abbrev Mem := Nat → Nat

/-- The mapped image (`fs->image`, `fs->size`). -/
structure Image where
  size : Nat
  sp : a1fs_superblock
  inode_bitmap : Bitmap
  data_bitmap : Bitmap
  inodes : Nat → a1fs_inode
  data : Mem

/-- The fields of `struct stat` that `a1fs_getattr` fills in. -/
structure stat where
  st_mode : Nat
  st_nlink : Nat
  st_size : Nat
  st_blocks : Nat
  st_mtim : timespec
  deriving DecidableEq, Repr

/-- The result of `memset(st, 0, sizeof(*st))`. -/
def stat_zero : stat := ⟨0, 0, 0, 0, ⟨0, 0⟩⟩

/-! ## Bytes of the data region -/

/-- A little-endian 32-bit field at offset `a`. -/
def rd32 (m : Mem) (a : Nat) : Nat :=
  m a + 256 * m (a + 1) + 65536 * m (a + 2) + 16777216 * m (a + 3)

def wr32 (m : Mem) (a : Nat) (v : Nat) : Mem := fun x =>
  if x = a then v % 256
  else if x = a + 1 then v / 256 % 256
  else if x = a + 2 then v / 65536 % 256
  else if x = a + 3 then v / 16777216 % 256
  else m x

def wr8 (m : Mem) (a : Nat) (v : Nat) : Mem := fun x =>
  if x = a then v % 256 else m x

/-- The effect of `memset(image + s_first_data_block + a, 0, n)`. -/
def memset0 (m : Mem) (a : Nat) (n : Nat) : Mem := fun x =>
  if a ≤ x ∧ x < a + n then 0 else m x

/-- The effect of `memcpy(image + s_first_data_block + a, buf, |buf|)`. -/
def memcpy_to (m : Mem) (a : Nat) (buf : List Nat) : Mem := fun x =>
  if a ≤ x ∧ x < a + buf.length then buf.getD (x - a) 0 else m x

/-- The bytes `memcpy(buf, image + s_first_data_block + a, n)` copies. -/
def mem_bytes (m : Mem) (a : Nat) (n : Nat) : List Nat :=
  (List.range n).map fun i => m (a + i)

/-- The test `strcmp(p, s) == 0` for the C string at offset `a` of the data
region and a string `s` without NUL byte. -/
def str_eq (m : Mem) (a : Nat) : List Nat → Bool
  | [] => m a == 0
  | c :: s => m a == c && str_eq m (a + 1) s

/-- The effect of `strcpy(p, s)` for `p` at offset `a`: the bytes of `s` and
the terminating NUL. -/
def strcpy_to (m : Mem) (a : Nat) (s : List Nat) : Mem :=
  memcpy_to m a (s ++ [0])

/-- The tombstone name `" "`. -/
def tombstone : List Nat := [32]

/-! ### Typed views -/

/-- The extent record `*(struct a1fs_extent *)(image + s_first_data_block + a)`. -/
def extent_at (m : Mem) (a : Nat) : a1fs_extent :=
  ⟨rd32 m a, rd32 m (a + 4)⟩

def set_extent_start (m : Mem) (a : Nat) (v : Nat) : Mem := wr32 m a v
def set_extent_count (m : Mem) (a : Nat) (v : Nat) : Mem := wr32 m (a + 4) v

/-- Extent `j` of the extent list of `inode`. -/
def inode_extent (m : Mem) (inode : a1fs_inode) (j : Nat) : a1fs_extent :=
  extent_at m (inode.extend_pt + j * sizeof_extent)

/-- The offset of entry `i` of the block run that starts at `start`. -/
def dentry_addr (start : Nat) (i : Nat) : Nat := start + i * sizeof_dentry

def dentry_ino (m : Mem) (a : Nat) : Nat := rd32 m a
def dentry_name_is (m : Mem) (a : Nat) (s : List Nat) : Bool := str_eq m (a + 4) s
def set_dentry_ino (m : Mem) (a : Nat) (v : Nat) : Mem := wr32 m a v
def set_dentry_name (m : Mem) (a : Nat) (s : List Nat) : Mem := strcpy_to m (a + 4) s

/-- The value of `(cur_extent->count) * A1FS_BLOCK_SIZE / sizeof(a1fs_dentry)`. -/
def entry_length (e : a1fs_extent) : Nat := e.count * A1FS_BLOCK_SIZE / sizeof_dentry

/-! ## Bitmaps (`helper.c`) -/

/-- The test `(bits[i/8] & (1 << (7 - i%8))) == 0` negated: bit `i` is set. -/
def bit_set (bm : Bitmap) (i : Nat) : Bool :=
  (bm (i / 8) &&& (1 <<< (7 - i % 8))) != 0

/-- The effect of `bits[i/8] |= (1 << (7 - i%8))`. -/
def set_bit (bm : Bitmap) (i : Nat) : Bitmap := fun k =>
  if k = i / 8 then bm k ||| (1 <<< (7 - i % 8)) else bm k

/-- The mask `hex` selected by the `switch` of `rm_single_bitmap`,
`rm_inode_bitmap` and `rm_multiple_data_bitmap`, as the unsigned byte it acts
as on an `unsigned char`. -/
def rm_mask (index_b : Nat) : Nat :=
  match index_b with
  | 0 => 0x7F
  | 1 => 0xBF
  | 2 => 0xDF
  | 3 => 0xEF
  | 4 => 0xF7
  | 5 => 0xFB
  | 6 => 0xFD
  | 7 => 0xFE
  | _ => 0x00

/-- The effect of `bits[i/8] &= hex`. -/
def clear_bit (bm : Bitmap) (i : Nat) : Bitmap := fun k =>
  if k = i / 8 then bm k &&& rm_mask (i % 8) else bm k

/-- The number of set bits among the first `n` bits. -/
def popcount (bm : Bitmap) : Nat → Nat
  | 0 => 0
  | n + 1 => popcount bm n + (if bit_set bm n then 1 else 0)

/-- The loop of `set_single_bitmap` / `set_inode_bitmap` from index `i` on, with
`k` indices left: the first clear bit is set and its index returned. -/
def set_first_free (bm : Bitmap) : Nat → Nat → Option (Nat × Bitmap)
  | 0, _ => none
  | k + 1, i => if bit_set bm i then set_first_free bm k (i + 1) else some (i, set_bit bm i)

/-- `set_inode_bitmap`: `none` stands for the return value `-1`. -/
def set_inode_bitmap (img : Image) : Option (Nat × Image) :=
  match set_first_free img.inode_bitmap img.sp.s_inodes_count 0 with
  | none => none
  | some (i, bm) => some (i, { img with inode_bitmap := bm })

/-- `set_single_bitmap`: `none` stands for the return value `-1`. -/
def set_single_bitmap (img : Image) (bitmap : Bool) : Option (Nat × Image) :=
  if bitmap then
    match set_first_free img.inode_bitmap img.sp.s_inodes_count 0 with
    | none => none
    | some (i, bm) => some (i, { img with inode_bitmap := bm })
  else
    match set_first_free img.data_bitmap img.sp.datablocks_count 0 with
    | none => none
    | some (i, bm) => some (i, { img with data_bitmap := bm })

/-- `rm_inode_bitmap` (its return value is never used). -/
def rm_inode_bitmap (img : Image) (ino : Nat) : Image :=
  if ino ≥ img.sp.s_inodes_count then img
  else { img with inode_bitmap := clear_bit img.inode_bitmap ino }

/-- `rm_single_bitmap` (its return value is never used). -/
def rm_single_bitmap (img : Image) (ino : Nat) (bitmap : Bool) : Image :=
  if bitmap then
    if ino ≥ img.sp.s_inodes_count then img
    else { img with inode_bitmap := clear_bit img.inode_bitmap ino }
  else
    if ino ≥ img.sp.datablocks_count then img
    else { img with data_bitmap := clear_bit img.data_bitmap ino }

/-- The loop of `set_multiple_data_bitmap`: `n` bits from index `i` on. -/
def set_bits (bm : Bitmap) : Nat → Nat → Bitmap
  | 0, _ => bm
  | n + 1, i => set_bits (set_bit bm i) n (i + 1)

/-- The loop of `rm_multiple_data_bitmap`: `n` bits from index `i` on. -/
def clear_bits (bm : Bitmap) : Nat → Nat → Bitmap
  | 0, _ => bm
  | n + 1, i => clear_bits (clear_bit bm i) n (i + 1)

def set_multiple_data_bitmap (img : Image) (extent : a1fs_extent) : Image :=
  { img with data_bitmap :=
      set_bits img.data_bitmap extent.count (extent.start / A1FS_BLOCK_SIZE) }

def rm_multiple_data_bitmap (img : Image) (extent : a1fs_extent) : Image :=
  { img with data_bitmap :=
      clear_bits img.data_bitmap extent.count (extent.start / A1FS_BLOCK_SIZE) }

/-! ## Paths (`strtok`, `basename`, `dirname`) -/

/-- The tokens `strtok(s, "/")` and the following `strtok(NULL, "/")` calls
return: the maximal runs of bytes other than `'/'` (byte 47). `cur` is the
token being read. -/
def strtok_all : List Nat → List Nat → List (List Nat)
  | [], cur => if cur = [] then [] else [cur]
  | c :: s, cur =>
    if c = 47 then
      (if cur = [] then strtok_all s [] else cur :: strtok_all s [])
    else strtok_all s (cur ++ [c])

/-- The tokens of `path + 1`, the way every walk of the driver starts. -/
def path_tokens (path : List Nat) : List (List Nat) := strtok_all path.tail []

def strip_slashes (p : List Nat) : List Nat :=
  (p.reverse.dropWhile (· == 47)).reverse

/-- The libc `basename` of `libgen.h`. -/
def basename (p : List Nat) : List Nat :=
  if p = [] then [46]
  else
    let q := strip_slashes p
    if q = [] then [47] else (q.reverse.takeWhile (· != 47)).reverse

/-- The libc `dirname` of `libgen.h`. -/
def dirname (p : List Nat) : List Nat :=
  let q := strip_slashes p
  if q = [] then (if p = [] then [46] else [47])
  else
    let d := q.reverse.dropWhile (· != 47)
    if d = [] then [46]
    else
      let d2 := strip_slashes d.reverse
      if d2 = [] then [47] else d2

/-- The bytes of a string literal, to write paths and names. -/
def cstr (s : String) : List Nat := s.toList.map Char.toNat

/-! ## Inode table -/

def upd_inode (img : Image) (i : Nat) (f : a1fs_inode → a1fs_inode) : Image :=
  let r := f (img.inodes i)
  { img with inodes := fun k => if k = i then r else img.inodes k }

def is_dir (inode : a1fs_inode) : Bool := (inode.mode &&& S_IFMT) == S_IFDIR

/-- The size in bytes of the data region, `datablocks_count` blocks. -/
def data_region_size (img : Image) : Nat := img.sp.datablocks_count * A1FS_BLOCK_SIZE

/-! ## `get_inode` (`helper.c`) -/

/-- The inner loop of `get_inode` over the entries of one extent: `rem` is
`entry_length - i`, which a tombstone leaves unchanged (`entry_length++`).
The result is `some (some ino)` when the token is found, `some none` when the
loop ends without a match, and `none` when the loop runs off the data region. -/
def get_inode_entries (img : Image) (start : Nat) (token : List Nat) :
    Nat → Nat → Nat → Option (Option Nat)
  | _, 0, _ => some none
  | 0, _ + 1, _ => none
  | fuel + 1, rem + 1, i =>
    if dentry_addr start i + sizeof_dentry > data_region_size img then none
    else if dentry_name_is img.data (dentry_addr start i) tombstone then
      get_inode_entries img start token fuel (rem + 1) (i + 1)
    else if dentry_name_is img.data (dentry_addr start i) token then
      some (some (dentry_ino img.data (dentry_addr start i)))
    else get_inode_entries img start token fuel rem (i + 1)

/-- The loop of `get_inode` over the extents `j, j+1, ...` of the current
directory, `k` of them left. -/
def get_inode_extents (img : Image) (cur : a1fs_inode) (token : List Nat) :
    Nat → Nat → Option (Option Nat)
  | 0, _ => some none
  | k + 1, j =>
    let e := inode_extent img.data cur j
    match get_inode_entries img e.start token
        (data_region_size img / sizeof_dentry + 1) (entry_length e) 0 with
    | none => none
    | some (some ino) => some (some ino)
    | some none => get_inode_extents img cur token k (j + 1)

/-- The `while (token != NULL)` loop of `get_inode`; the result is the return
value and the value stored in `*result` (nothing is stored on `-ENOTDIR`). -/
def get_inode_walk (img : Image) : List (List Nat) → Nat → Option (Int × Option Nat)
  | [], cur_ino => some (0, some cur_ino)
  | token :: rest, cur_ino =>
    if !is_dir (img.inodes cur_ino) then some (-ENOTDIR, none)
    else
      match get_inode_extents img (img.inodes cur_ino) token
          (img.inodes cur_ino).extent_used 0 with
      | none => none
      | some (some ino) => get_inode_walk img rest ino
      | some none => some (0, some cur_ino)

def get_inode (img : Image) (path : List Nat) : Option (Int × Option Nat) :=
  get_inode_walk img (path_tokens path) 0

/-- The variable the callers pass as `result`, read after the call whatever
`get_inode` returned: it holds no value when `get_inode` stored none. -/
def get_inode_result (img : Image) (path : List Nat) : Option Nat :=
  match get_inode img path with
  | some (_, some r) => some r
  | _ => none

/-! ## `a1fs_getattr` -/

/-- The loop of `a1fs_getattr` (and of the walk of `a1fs_readdir`) over the
entries `i, i+1, ...` of one extent, `n` of them left. -/
def lookup_entries (m : Mem) (start : Nat) (token : List Nat) : Nat → Nat → Option Nat
  | 0, _ => none
  | n + 1, i =>
    if dentry_name_is m (dentry_addr start i) token then
      some (dentry_ino m (dentry_addr start i))
    else lookup_entries m start token n (i + 1)

/-- The loop over the extents `j, j+1, ...` of the current directory. -/
def lookup_extents (m : Mem) (cur : a1fs_inode) (token : List Nat) : Nat → Nat → Option Nat
  | 0, _ => none
  | k + 1, j =>
    let e := inode_extent m cur j
    match lookup_entries m e.start token (entry_length e) 0 with
    | some ino => some ino
    | none => lookup_extents m cur token k (j + 1)

/-- The `while (token != NULL)` loop of `a1fs_getattr`: the error it returns,
or the index of the inode the path ends at. -/
def getattr_walk (img : Image) : List (List Nat) → Nat → Except Int Nat
  | [], cur_ino => .ok cur_ino
  | token :: rest, cur_ino =>
    if !is_dir (img.inodes cur_ino) then .error (-ENOTDIR)
    else
      match lookup_extents img.data (img.inodes cur_ino) token
          (img.inodes cur_ino).extent_used 0 with
      | some ino => getattr_walk img rest ino
      | none => .error (if rest = [] then -ENOENT else -ENOTDIR)

/-- `a1fs_getattr(path, st)`: the return value and the record `*st` after the
call; `st` is the record the caller passes in. The test of the length returns
before `memset(st, 0, sizeof(*st))`, so on that path `*st` is left as it
was. -/
def a1fs_getattr (img : Image) (path : List Nat) (st : stat) : Int × stat :=
  if path.length ≥ A1FS_PATH_MAX then (-ENAMETOOLONG, st)
  else if path.head? ≠ some 47 ∧ path.head? ≠ some 46 then (-ENOENT, stat_zero)
  else if path = [47] then
    let root := img.inodes 0
    (0, ⟨S_IFDIR ||| 0o777, root.links, root.size, root.size / 512, root.mtime⟩)
  else
    match getattr_walk img (path_tokens path) 0 with
    | .error e => (e, stat_zero)
    | .ok ino =>
      let cur := img.inodes ino
      (0, ⟨cur.mode, cur.links, cur.size, cur.size / 512, cur.mtime⟩)

/-! ## Directory insertion (`a1fs_mkdir`, `a1fs_create`) -/

/-- The conversion `(unsigned int)x` of a C `int`. -/
def to_uint (x : Int) : Nat := (x % 4294967296).toNat

/-- The conversion of an integer value to a C `int`: its residue modulo
`2^32` in `[-2^31, 2^31)`. -/
def int_of (z : Int) : Int :=
  if z % 4294967296 < 2147483648 then z % 4294967296 else z % 4294967296 - 4294967296

/-- The conversion of an unsigned value to a C `int`. -/
def to_int (v : Nat) : Int :=
  if v % 4294967296 < 2147483648 then (v % 4294967296 : Nat) else (v % 4294967296 : Nat) - 4294967296

/-- The block `if (parent->extent_used == 0) { ... }` that opens `a1fs_mkdir`
and `a1fs_create`: an extent-list block and a first, zero-filled data block.
The flag is `false` when the block returns `-ENOSPC`. -/
def first_extent (img : Image) (p : Nat) : Bool × Image :=
  if (img.inodes p).extent_used = 0 then
    match set_single_bitmap img false with
    | none => (false, img)
    | some (extent_pt_index, img1) =>
      let img2 := upd_inode img1 p fun n =>
        { n with extend_pt := extent_pt_index * A1FS_BLOCK_SIZE }
      match set_single_bitmap img2 false with
      | none => (false, img2)
      | some (first_extent_pt, img3) =>
        let a := (img3.inodes p).extend_pt
        let m1 := set_extent_start img3.data a (first_extent_pt * A1FS_BLOCK_SIZE)
        let m2 := set_extent_count m1 a 1
        let m3 := memset0 m2 (extent_at m2 a).start (A1FS_BLOCK_SIZE * (extent_at m2 a).count)
        (true, upd_inode { img3 with data := m3 } p fun n =>
          { n with extent_used := n.extent_used + 1 })
  else (true, img)

/-- The inner loop of the slot search over the entries `i, i+1, ...` of one
extent, `n` of them left: the offset of the slot taken (a tombstone, or the
slot reached with `entry_stored == 0`), or the value `entry_stored` has when
the loop ends. -/
def slot_entries (m : Mem) (start : Nat) : Nat → Nat → Int → Nat ⊕ Int
  | 0, _, entry_stored => .inr entry_stored
  | n + 1, i, entry_stored =>
    if dentry_name_is m (dentry_addr start i) tombstone || entry_stored == 0 then
      .inl (dentry_addr start i)
    else slot_entries m start n (i + 1) (entry_stored - 1)

/-- The loop of the slot search over the extents `j, j+1, ...`, `k` left. -/
def slot_extents (m : Mem) (parent : a1fs_inode) : Nat → Nat → Int → Option Nat
  | 0, _, _ => none
  | k + 1, j, entry_stored =>
    match slot_entries m (inode_extent m parent j).start
        (entry_length (inode_extent m parent j)) 0 entry_stored with
    | .inl a => some a
    | .inr entry_stored1 => slot_extents m parent k (j + 1) entry_stored1

/-- The two statements that fill an entry: `strcpy(entry->name, name)` and
`entry->ino = new_ino`. -/
def write_entry (m : Mem) (a : Nat) (name : List Nat) (new_ino : Nat) : Mem :=
  set_dentry_ino (set_dentry_name m a name) a new_ino

/-- The part of `a1fs_mkdir` / `a1fs_create` that adds the entry
`(basename(path), new_ino)` to the parent: the slot search and, when no slot
is found, the extent appended to the parent. `none` stands for the return of
`-ENOSPC`, which leaves the image as it is at that point. -/
def add_entry (img : Image) (p : Nat) (path : List Nat) (new_ino : Nat) : Option Image :=
  let parent := img.inodes p
  match slot_extents img.data parent parent.extent_used 0 (to_int (parent.size / sizeof_dentry)) with
  | some a => some { img with data := write_entry img.data a (basename path) new_ino }
  | none =>
    match set_single_bitmap img false with
    | none => none
    | some (extent_bk, img1) =>
      let a := parent.extend_pt + parent.extent_used * sizeof_extent
      let m1 := set_extent_start img1.data a (extent_bk * A1FS_BLOCK_SIZE)
      let m2 := set_extent_count m1 a 1
      let m3 := memset0 m2 (extent_at m2 a).start (A1FS_BLOCK_SIZE * (extent_at m2 a).count)
      let img2 := upd_inode { img1 with data := m3 } p fun n =>
        { n with extent_used := n.extent_used + 1 }
      some { img2 with data := write_entry m3 (extent_at m3 a).start (basename path) new_ino }

/-- The end of `a1fs_mkdir` / `a1fs_create`: the new inode, the parent's size
and mtime, the superblock counter. `now` is what `clock_gettime` stores. -/
def finish_create (img : Image) (p new_ino mode links : Nat) (now : timespec) : Image :=
  let img1 := upd_inode img new_ino fun n =>
    { n with mode := mode, links := links, size := 0, mtime := now }
  let t := (img1.inodes new_ino).mtime
  let img2 := upd_inode img1 p fun n =>
    { n with size := (n.size + sizeof_dentry) % 18446744073709551616, mtime := t }
  { img2 with sp := { img2.sp with inodes_usd := img2.sp.inodes_usd + 1 } }

def a1fs_mkdir (img : Image) (path : List Nat) (mode : Nat) (now : timespec) :
    Option (Int × Image) :=
  match get_inode_result img path with
  | none => none
  | some parent_inode =>
    match first_extent img parent_inode with
    | (false, img1) => some (-ENOSPC, img1)
    | (true, img1) =>
      let img2 := upd_inode img1 parent_inode fun n =>
        { n with links := (n.links + 1) % 4294967296 }
      match set_inode_bitmap img2 with
      | none => some (-ENOSPC, img2)
      | some (new_ino, img3) =>
        if path.length ≥ PATH_MAX then none
        else
          match add_entry img3 parent_inode path new_ino with
          | none => some (-ENOSPC, img3)
          | some img4 =>
            some (0, finish_create img4 parent_inode new_ino (mode ||| S_IFDIR) 2 now)

/-- `a1fs_create`; `none` also when `assert(S_ISREG(mode))` fails. -/
def a1fs_create (img : Image) (path : List Nat) (mode : Nat) (now : timespec) :
    Option (Int × Image) :=
  if (mode &&& S_IFMT) ≠ S_IFREG then none
  else
    match get_inode_result img path with
    | none => none
    | some parent_inode =>
      match first_extent img parent_inode with
      | (false, img1) => some (-ENOSPC, img1)
      | (true, img1) =>
        match set_inode_bitmap img1 with
        | none => some (-ENOSPC, img1)
        | some (new_ino, img3) =>
          if path.length ≥ PATH_MAX then none
          else
            match add_entry img3 parent_inode path new_ino with
            | none => some (-ENOSPC, img3)
            | some img4 => some (0, finish_create img4 parent_inode new_ino mode 1 now)

/-! ## Directory removal (`a1fs_rmdir`, `a1fs_unlink`) -/

/-- The inner loop of the removal over the entries `i, i+1, ...` of one
extent, `n` left: the offset of the first entry whose `ino` is the target. -/
def find_target (m : Mem) (start : Nat) (target : Nat) : Nat → Nat → Option Nat
  | 0, _ => none
  | n + 1, i =>
    if dentry_ino m (dentry_addr start i) = target % 4294967296 then some (dentry_addr start i)
    else find_target m start target n (i + 1)

/-- The body of the inner loop once the target is found: the entry at offset
`a` becomes a tombstone (`strcpy(name, " ")`, `name[1] = 0`) with `ino` 0. -/
def make_tombstone (m : Mem) (a : Nat) : Mem :=
  set_dentry_ino (wr8 (set_dentry_name m a tombstone) (a + 4 + 1) 0) a 0

/-- The inner loop of the removal over the entries of the extent that starts
at `start`, `n` entries long: the first entry whose `ino` is the target
becomes a tombstone. -/
def tombstone_entries (img : Image) (start : Nat) (target : Nat) (n : Nat) : Image :=
  match find_target img.data start target n 0 with
  | some a => { img with data := make_tombstone img.data a }
  | none => img

/-- The loop of `dentry_sum`: the sum of the `ino` fields of the entries
`i, i+1, ...`, `n` left. -/
def dentry_sum_from (m : Mem) (start : Nat) : Nat → Nat → Nat
  | 0, _ => 0
  | n + 1, i => dentry_ino m (dentry_addr start i) + dentry_sum_from m start n (i + 1)

/-- `dentry_sum` started with `sum = 0`: the `int` it leaves in `sum`. -/
def dentry_sum (m : Mem) (e : a1fs_extent) : Int :=
  to_int (dentry_sum_from m e.start (entry_length e) 0)

/-- `swap_extent`: the extent at offset `a` receives the count, then the
start, of the last extent of inode `p` (it is called with `extent_used > 0`). -/
def swap_extent (img : Image) (a : Nat) (p : Nat) : Image :=
  let last := (img.inodes p).extend_pt + ((img.inodes p).extent_used - 1) * sizeof_extent
  let c := (extent_at img.data last).count
  let m1 := set_extent_count img.data a c
  let st := (extent_at m1 last).start
  { img with data := set_extent_start m1 a st }

/-- The loop `for (j = 0; j < parent->extent_used; j++)` of `a1fs_rmdir` and
`a1fs_unlink`, from `j` on; `fuel` bounds the iterations left (the loop bound
only decreases). -/
def remove_loop (p target : Nat) : Nat → Nat → Image → Image
  | 0, _, img => img
  | fuel + 1, j, img =>
    if j < (img.inodes p).extent_used then
      let a := (img.inodes p).extend_pt + j * sizeof_extent
      let cur := extent_at img.data a
      let img1 := tombstone_entries img cur.start target (entry_length cur)
      if dentry_sum img1.data (extent_at img1.data a) = 0 then
        let img2 := rm_single_bitmap img1 ((extent_at img1.data a).start / A1FS_BLOCK_SIZE) false
        let img3 := swap_extent img2 a p
        remove_loop p target fuel (j + 1)
          (upd_inode img3 p fun n => { n with extent_used := n.extent_used - 1 })
      else remove_loop p target fuel (j + 1) img1
    else img

/-- The statements `parent->links -= 1; parent->size -= sizeof(a1fs_dentry);`
and the `clock_gettime` into `parent->mtime` of `a1fs_rmdir` and `a1fs_unlink`. -/
def parent_removed (n : a1fs_inode) (now : timespec) : a1fs_inode :=
  { n with links := if n.links = 0 then 4294967295 else n.links - 1,
           size := if n.size < sizeof_dentry then n.size + (18446744073709551616 - sizeof_dentry)
                   else n.size - sizeof_dentry,
           mtime := now }

/-- The statement `sp->inodes_usd -= 1`. -/
def dec_inodes_usd (sp : a1fs_superblock) : a1fs_superblock :=
  { sp with inodes_usd := if sp.inodes_usd = 0 then 4294967295 else sp.inodes_usd - 1 }

/-- The common end of `a1fs_rmdir` and `a1fs_unlink`, from the update of the
parent's attributes on. -/
def remove_entry (img : Image) (p target : Nat) (now : timespec) : Image :=
  let img1 := upd_inode img p fun n => parent_removed n now
  let img2 := remove_loop p target (img1.inodes p).extent_used 0 img1
  let img3 :=
    if (img2.inodes p).extent_used = 0 then
      rm_single_bitmap img2 ((img2.inodes p).extend_pt / A1FS_BLOCK_SIZE) false
    else img2
  { img3 with sp := dec_inodes_usd img3.sp }

def a1fs_rmdir (img : Image) (path : List Nat) (now : timespec) : Option (Int × Image) :=
  if path.length ≥ PATH_MAX then none
  else
    match get_inode_result img (dirname path), get_inode_result img path with
    | some parent_inode, some target_inode =>
      if (img.inodes target_inode).size ≠ 0 then some (-ENOTEMPTY, img)
      else some (0, remove_entry (rm_inode_bitmap img target_inode) parent_inode target_inode now)
    | _, _ => none

/-- The loop of `rm_target` over the extents `i, i+1, ...`, `k` left. -/
def rm_target_loop (inode : a1fs_inode) : Nat → Nat → Image → Image
  | 0, _, img => img
  | k + 1, i, img =>
    let img1 := rm_multiple_data_bitmap img (inode_extent img.data inode i)
    rm_target_loop inode k (i + 1)
      (rm_single_bitmap img1 (inode.extend_pt / A1FS_BLOCK_SIZE) false)

def rm_target (img : Image) (inode : a1fs_inode) : Image :=
  rm_target_loop inode inode.extent_used 0 img

def a1fs_unlink (img : Image) (path : List Nat) (now : timespec) : Option (Int × Image) :=
  if path.length ≥ PATH_MAX then none
  else
    match get_inode_result img (dirname path), get_inode_result img path with
    | some parent_inode_index, some target_inode_index =>
      let img1 := rm_inode_bitmap img target_inode_index
      let img2 := rm_target img1 (img1.inodes target_inode_index)
      some (0, remove_entry img2 parent_inode_index target_inode_index now)
    | _, _ => none

/-! ## `a1fs_readdir` -/

/-- The C string at offset `a`, the way `filler` reads the name it is given:
the bytes up to the first NUL. `none` when there is no NUL within `fuel`
bytes. -/
def cstr_at (m : Mem) : Nat → Nat → Option (List Nat)
  | 0, _ => none
  | fuel + 1, a => if m a = 0 then some [] else (cstr_at m fuel (a + 1)).map (m a :: ·)

/-- What the enumeration loops of `a1fs_readdir` hand on: `-ENOMEM` was
returned (`failed`), the value of `entry_check`, the names passed to `filler`. -/
structure fill_state where
  failed : Bool
  entry_check : Int
  names : List (List Nat)
  deriving DecidableEq, Repr

/-- The inner loop of the enumeration over the entries `i, i+1, ...` of one
extent, `n` left. `filler` accepts `cap` names and fails from then on. -/
def readdir_entries (img : Image) (start : Nat) (cap : Nat) :
    Nat → Nat → fill_state → Option fill_state
  | 0, _, st => some st
  | n + 1, i, st =>
    if st.entry_check == 0 then some st
    else if dentry_name_is img.data (dentry_addr start i) tombstone then
      readdir_entries img start cap n (i + 1) st
    else
      match cstr_at img.data (data_region_size img) (dentry_addr start i + 4) with
      | none => none
      | some name =>
        if st.names.length ≥ cap then some { st with failed := true }
        else readdir_entries img start cap n (i + 1)
          ⟨false, st.entry_check - 1, st.names ++ [name]⟩

/-- The loop of the enumeration over the extents `j, j+1, ...`, `k` left. -/
def readdir_extents (img : Image) (cur : a1fs_inode) (cap : Nat) :
    Nat → Nat → fill_state → Option fill_state
  | 0, _, st => some st
  | k + 1, j, st =>
    if st.entry_check == 0 then some st
    else
      match readdir_entries img (inode_extent img.data cur j).start cap
          (entry_length (inode_extent img.data cur j)) 0 st with
      | none => none
      | some st1 => if st1.failed then some st1 else readdir_extents img cur cap k (j + 1) st1

/-- The enumeration of the directory `cur`: the return value and the names
passed to `filler`, in order. -/
def readdir_fill (img : Image) (cur : a1fs_inode) (cap : Nat) : Option (Int × List (List Nat)) :=
  match readdir_extents img cur cap cur.extent_used 0
      ⟨false, to_int (cur.size / sizeof_dentry), []⟩ with
  | none => none
  | some st => some (if st.failed then -ENOMEM else 0, st.names)

/-- The `while (token != NULL)` loop of `a1fs_readdir`: the value it returns
early, or the index of the inode the path ends at. -/
def readdir_walk (img : Image) : List (List Nat) → Nat → Except Int Nat
  | [], cur_ino => .ok cur_ino
  | token :: rest, cur_ino =>
    if !is_dir (img.inodes cur_ino) then .error (-ENOTDIR)
    else
      match lookup_extents img.data (img.inodes cur_ino) token
          (img.inodes cur_ino).extent_used 0 with
      | some ino => readdir_walk img rest ino
      | none => .error (if rest ≠ [] then -ENOENT else 0)

def a1fs_readdir (img : Image) (path : List Nat) (cap : Nat) : Option (Int × List (List Nat)) :=
  if path.head? ≠ some 47 then some (-ENOENT, [])
  else if path = [47] then readdir_fill img (img.inodes 0) cap
  else
    match readdir_walk img (path_tokens path) 0 with
    | .error e => some (e, [])
    | .ok ino => readdir_fill img (img.inodes ino) cap

/-! ## Free runs (`helper.c`) -/

/-- The loop of `find_free_extents` from bit `i` on, `k` bits left, with the
locals `activate`, `block_count`, `start` and the array filled so far. -/
def find_free_loop (bm : Bitmap) (bits : Nat) :
    Nat → Nat → Bool → Nat → Nat → List a1fs_extent → List a1fs_extent
  | 0, _, _, _, _, acc => acc
  | k + 1, i, activate, block_count, start, acc =>
    if !bit_set bm i then
      if i = bits - 1 then
        find_free_loop bm bits k (i + 1) activate block_count start
          (acc ++ [⟨start, block_count + 1⟩])
      else if activate then
        find_free_loop bm bits k (i + 1) activate (block_count + 1) start acc
      else find_free_loop bm bits k (i + 1) true (block_count + 1) i acc
    else
      if activate then
        find_free_loop bm bits k (i + 1) false 0 0 (acc ++ [⟨start, block_count⟩])
      else find_free_loop bm bits k (i + 1) activate block_count start acc

/-- `find_free_extents`: the array it returns (`start` counts blocks). -/
def find_free_extents (img : Image) : List a1fs_extent :=
  find_free_loop img.data_bitmap img.sp.datablocks_count img.sp.datablocks_count
    0 false 0 0 []

/-- The inner loop of `sort_extents`: `k` comparisons of neighbours, from the
front of the array. -/
def bubble_pass : Nat → List a1fs_extent → List a1fs_extent
  | k + 1, x :: y :: rest =>
    if x.count > y.count then y :: bubble_pass k (x :: rest)
    else x :: bubble_pass k (y :: rest)
  | _, l => l

/-- The outer loop of `sort_extents` from `i` on, `k` passes left. -/
def sort_loop (n : Nat) : Nat → Nat → List a1fs_extent → List a1fs_extent
  | 0, _, l => l
  | k + 1, i, l => sort_loop n k (i + 1) (bubble_pass (n - i - 1) l)

def sort_extents (free_extents : List a1fs_extent) : List a1fs_extent :=
  sort_loop free_extents.length (free_extents.length - 1) 0 free_extents

def sum_extents (free_extents : List a1fs_extent) : Nat :=
  (free_extents.map (·.count)).sum

/-- `allocate_extent`: the image and the value stored in `*leftover`. -/
def allocate_extent (img : Image) (t : Nat) (block_size : Nat) (extent : a1fs_extent) :
    Image × Nat :=
  let new_count := if block_size > extent.count then extent.count else block_size
  let leftover := if block_size > extent.count then block_size - extent.count else 0
  let inode := img.inodes t
  let a := inode.extend_pt + inode.extent_used * sizeof_extent
  let m1 :=
    if inode.extent_used = 0 then
      set_extent_count (set_extent_start img.data a (extent.start * A1FS_BLOCK_SIZE)) a new_count
    else
      set_extent_start (set_extent_count img.data a new_count) a (extent.start * A1FS_BLOCK_SIZE)
  let m2 := memset0 m1 (extent_at m1 a).start (A1FS_BLOCK_SIZE * (extent_at m1 a).count)
  (upd_inode { img with data := m2 } t fun n => { n with extent_used := n.extent_used + 1 },
   leftover)

/-- `find_extent`: the values stored in `*extent_index` and `*byte_index` by
the loop from extent `i` on, `k` left, with the local `size`; `none` when the
loop ends without storing them. `size` and `*byte_index` are of type `int`:
what is assigned to them is reduced to 32 bits. -/
def find_extent_loop (m : Mem) (inode : a1fs_inode) : Nat → Nat → Int → Option (Nat × Int)
  | 0, _, _ => none
  | k + 1, i, size =>
    let size1 := int_of (size - ((inode_extent m inode i).count * A1FS_BLOCK_SIZE : Nat))
    if size1 > 0 then find_extent_loop m inode k (i + 1) size1
    else some (i, int_of (size1 + ((inode_extent m inode i).count * A1FS_BLOCK_SIZE : Nat) - 1))

def find_extent (m : Mem) (inode : a1fs_inode) (offset : Int) : Option (Nat × Int) :=
  find_extent_loop m inode inode.extent_used 0 (int_of (offset + 1))

/-- The number of blocks in the extents before extent `i` of the extent list
of `inode`: the sum `c_0 + ... + c_{i-1}` of their counts. -/
def blocks_before (m : Mem) (inode : a1fs_inode) (i : Nat) : Nat :=
  ((List.range i).map fun j => (inode_extent m inode j).count).sum

/-- The loop of `fill_zero` over the extents `i, i+1, ...`, `k` left. -/
def fill_zero_loop (inode : a1fs_inode) : Nat → Nat → Mem → Mem
  | 0, _, m => m
  | k + 1, i, m =>
    fill_zero_loop inode k (i + 1)
      (memset0 m (inode_extent m inode i).start ((inode_extent m inode i).count * A1FS_BLOCK_SIZE))

def fill_zero (img : Image) (inode : a1fs_inode) (extent_start : Nat) : Image :=
  { img with data := fill_zero_loop inode (inode.extent_used - extent_start) extent_start img.data }

/-! ## `a1fs_truncate` -/

/-- The number of blocks `size` bytes take: the value of the expression
`(size % A1FS_BLOCK_SIZE == 0) ? size / A1FS_BLOCK_SIZE : size / A1FS_BLOCK_SIZE + 1`
on a 64-bit size, before it is stored anywhere. -/
def blocks_of (size : Nat) : Nat :=
  if size % A1FS_BLOCK_SIZE = 0 then size / A1FS_BLOCK_SIZE else size / A1FS_BLOCK_SIZE + 1

/-- The locals `int target_blocks` and `int size_blocks` of `a1fs_truncate`
(and `target_blocks` of `a1fs_write`): the number of blocks, reduced to a
32-bit `int` by the assignment. -/
def int_blocks_of (size : Nat) : Int := to_int (blocks_of size)

/-- The local `int size_blocks` of `a1fs_write`, computed from the local
`int new_size` with the division and remainder of C, which round towards
zero. -/
def int_blocks_of_int (new_size : Int) : Int :=
  if new_size.tmod A1FS_BLOCK_SIZE = 0 then new_size.tdiv A1FS_BLOCK_SIZE
  else new_size.tdiv A1FS_BLOCK_SIZE + 1

/-- The loop `while (blocks_required != 0)` of `a1fs_truncate` over the sorted
free runs still to use; `none` when it runs off the array. -/
def grow_loop (t : Nat) : List a1fs_extent → Nat → Image → Option Image
  | _, 0, img => some img
  | [], _ + 1, _ => none
  | e :: rest, r + 1, img =>
    let (img1, leftover) := allocate_extent img t (r + 1) e
    let last := (img1.inodes t).extend_pt + ((img1.inodes t).extent_used - 1) * sizeof_extent
    grow_loop t rest leftover (set_multiple_data_bitmap img1 (extent_at img1.data last))

/-- The branch `target_blocks < size_blocks` of `a1fs_truncate`. The
difference `int blocks_required = size_blocks - target_blocks` is positive in
this branch; `none` when it does not fit an `int` (signed overflow). -/
def truncate_grow (img : Image) (t : Nat) (size : Nat) : Option (Int × Image) :=
  let target_blocks := int_blocks_of (img.inodes t).size
  let size_blocks := int_blocks_of size
  let old_size := to_int (img.inodes t).size
  let img1 : Option Image :=
    if (img.inodes t).extent_used = 0 then
      match set_single_bitmap img false with
      | none => none
      | some (extent_pt_index, im) =>
        some (upd_inode im t fun n => { n with extend_pt := extent_pt_index * A1FS_BLOCK_SIZE })
    else some img
  match img1 with
  | none => some (-ENOSPC, img)
  | some img1 =>
    let blocks_required : Int := size_blocks - target_blocks
    let free_extents := find_free_extents img1
    if blocks_required > 2147483647 then none
    else if (sum_extents free_extents : Int) < blocks_required then some (-ENOSPC, img1)
    else
      match grow_loop t (sort_extents free_extents) blocks_required.toNat img1 with
      | none => none
      | some img2 =>
        let img3 := upd_inode img2 t fun n => { n with size := size }
        match find_extent img3.data (img3.inodes t) (old_size - 1) with
        | none => none
        | some (ext_index, byte_index) =>
          let target_extent := inode_extent img3.data (img3.inodes t) ext_index
          let residue : Int := (target_extent.count * A1FS_BLOCK_SIZE : Nat) - (byte_index + 1)
          let dst : Int := target_extent.start + byte_index
          if residue > 0 then
            if dst < 0 then none
            else
              let m := memset0 img3.data dst.toNat residue.toNat
              some (0, { img3 with data := m })
          else if residue < 0 then none
          else some (0, img3)

/-- The branch `target_blocks > size_blocks` of `a1fs_truncate`. -/
def truncate_shrink (img : Image) (t : Nat) (size : Nat) : Int × Image :=
  let target_inode_extent := inode_extent img.data (img.inodes t) 0
  let data_remain : Int := ((img.inodes t).size % A1FS_BLOCK_SIZE : Nat)
  let data_to_be_deleted : Int := int_of (((img.inodes t).size : Int) - size)
  let img1 :=
    if data_to_be_deleted < data_remain then upd_inode img t fun n => { n with size := size }
    else img
  if data_to_be_deleted ≥ data_remain then
    let img2 := upd_inode img1 t fun n => { n with size := size }
    let data_remain_2 := size % A1FS_BLOCK_SIZE
    let full_blocks := size / A1FS_BLOCK_SIZE
    let new_extent : a1fs_extent :=
      ⟨target_inode_extent.start, if data_remain_2 ≠ 0 then full_blocks + 1 else full_blocks⟩
    (0, set_multiple_data_bitmap (rm_multiple_data_bitmap img2 target_inode_extent) new_extent)
  else (0, img1)

def a1fs_truncate (img : Image) (path : List Nat) (size : Nat) (now : timespec) :
    Option (Int × Image) :=
  match get_inode_result img path with
  | none => none
  | some t =>
    if size = 0 then a1fs_unlink img path now
    else if int_blocks_of (img.inodes t).size = int_blocks_of size then some (0, img)
    else if int_blocks_of (img.inodes t).size < int_blocks_of size then truncate_grow img t size
    else some (truncate_shrink img t size)

/-! ## `a1fs_read`, `a1fs_write` -/

/-- The effect of `memcpy(buf, src, n)` on the caller's buffer. -/
def copy_out (buf : List Nat) (m : Mem) (a : Nat) (n : Nat) : List Nat :=
  mem_bytes m a n ++ buf.drop n

/-- `a1fs_read` with `size = |buf|`: the return value and the buffer. -/
def a1fs_read (img : Image) (path : List Nat) (buf : List Nat) (offset : Nat) :
    Option (Int × List Nat) :=
  match get_inode_result img path with
  | none => none
  | some t =>
    let inode := img.inodes t
    let size := buf.length
    if offset ≥ inode.size % 4294967296 then some (0, buf)
    else
      let data_start := (inode_extent img.data inode 0).start
      let remain := A1FS_BLOCK_SIZE - offset % A1FS_BLOCK_SIZE
      if remain ≤ size then
        if inode.size ≥ offset + size then
          some (size, copy_out buf img.data (data_start + offset) remain)
        else some (size, copy_out buf img.data (data_start + offset) (inode.size - offset))
      else
        if inode.size ≥ offset + size then
          some (size, copy_out buf img.data (data_start + offset) size)
        else some (size, copy_out buf img.data (data_start + offset) (inode.size - offset))

/-- `a1fs_write` with `size = |buf|`. The local `int new_size = size + offset`
is reduced to 32 bits; `none` when `a1fs_truncate` would be called with a
negative `new_size`, a size that `a1fs_truncate` is not modelled for. -/
def a1fs_write (img : Image) (path : List Nat) (buf : List Nat) (offset : Nat)
    (now : timespec) : Option (Int × Image) :=
  match get_inode_result img path with
  | none => none
  | some t =>
    let size := buf.length
    let new_size : Int := to_int (size + offset)
    let img1 : Option Image :=
      if int_blocks_of (img.inodes t).size < int_blocks_of_int new_size then
        if new_size < 0 then none
        else (a1fs_truncate img path new_size.toNat now).map (·.2)
      else some img
    match img1 with
    | none => none
    | some img1 =>
      match find_extent img1.data (img1.inodes t) offset with
      | none => none
      | some (extent_index1, byte_index1) =>
        let offset_extent := inode_extent img1.data (img1.inodes t) extent_index1
        let residue : Int := (offset_extent.count * A1FS_BLOCK_SIZE : Nat) - (byte_index1 + 1)
        if to_uint residue < size % 4294967296 then
          let m1 := memcpy_to img1.data (offset_extent.start + offset) (buf.take residue.toNat)
          let offset_extent2 := inode_extent m1 (img1.inodes t) (extent_index1 + 1)
          let m2 := memcpy_to m1 offset_extent2.start (buf.drop residue.toNat)
          some (size, { img1 with data := m2 })
        else
          let m1 := memcpy_to img1.data (offset_extent.start + offset) buf
          some (size, { img1 with data := m1 })

/-! ## `a1fs_statfs` -/

/-- The fields of `struct statvfs` that `a1fs_statfs` fills in; the others are
left zero by `memset`. -/
structure statvfs where
  f_bsize : Nat
  f_frsize : Nat
  f_blocks : Nat
  f_bfree : Nat
  f_bavail : Nat
  f_files : Nat
  f_ffree : Nat
  f_favail : Nat
  f_namemax : Nat
  deriving DecidableEq, Repr

/-- The conversion of a C `int` to a 64-bit unsigned field. -/
def to_u64 (z : Int) : Nat := (z % 18446744073709551616).toNat

/-- `a1fs_statfs`: the return value and the record stored in `*st`.
`blocks_num` is an `int`; the counters of the superblock are 32-bit unsigned,
so both differences are taken modulo `2^32`. -/
def a1fs_statfs (img : Image) : Int × statvfs :=
  let blocks_num : Int :=
    int_of (if img.size % A1FS_BLOCK_SIZE ≠ 0 then (img.size / A1FS_BLOCK_SIZE + 1 : Nat)
            else (img.size / A1FS_BLOCK_SIZE : Nat))
  (0, { f_bsize := A1FS_BLOCK_SIZE,
        f_frsize := A1FS_BLOCK_SIZE,
        f_blocks := to_u64 blocks_num,
        f_bfree := to_uint (blocks_num - img.sp.blocks_usd),
        f_bavail := to_uint (blocks_num - img.sp.blocks_usd),
        f_files := img.sp.s_inodes_count,
        f_ffree := to_uint ((img.sp.s_inodes_count : Int) - img.sp.inodes_usd),
        f_favail := to_uint ((img.sp.s_inodes_count : Int) - img.sp.inodes_usd),
        f_namemax := A1FS_NAME_MAX })

/-! ## A freshly formatted image -/

/-- Modelled from the spec: the formatter is not among the sources. The image
it leaves has `n_inodes` inodes and `n_blocks` data blocks, inode 0 allocated
as the root directory (an empty directory with 2 links), every other bit of
both bitmaps clear, a zeroed data region, and counters equal to the popcounts
of the bitmaps. -/
def mkfs (n_inodes n_blocks : Nat) : Image where
  size := (n_blocks + 4) * A1FS_BLOCK_SIZE
  sp := ⟨n_inodes, n_blocks, 1, 0⟩
  inode_bitmap := fun k => if k = 0 then 0x80 else 0
  data_bitmap := fun _ => 0
  inodes := fun k =>
    if k = 0 then ⟨S_IFDIR ||| 0o777, 2, 0, ⟨0, 0⟩, 0, 0⟩ else ⟨0, 0, 0, ⟨0, 0⟩, 0, 0⟩
  data := fun _ => 0

/-! ## Scenarios

Sequences of calls on a freshly formatted image, used to run the driver on
concrete inputs. -/

/-- The time `clock_gettime` stores in the scenarios. -/
def clock0 : timespec := ⟨1, 0⟩

/-- The mode of a regular file, `S_IFREG | 0644`. -/
def reg_mode : Nat := S_IFREG ||| 0o644

/-- The image a call leaves, whatever it returned. -/
def image_of (r : Option (Int × Image)) : Option Image := r.map (·.2)

/-- A fresh image with 8 inodes and 8 data blocks. -/
def fresh : Image := mkfs 8 8

/-- `create("/f")` on a fresh image. -/
def img_f : Option Image := image_of (a1fs_create fresh (cstr "/f") reg_mode clock0)

/-- `create("/f")`, `write("/f", "hello", 5, 0)`. -/
def img_f_hello : Option Image :=
  img_f.bind fun i => image_of (a1fs_write i (cstr "/f") (cstr "hello") 0 clock0)

/-- `create("/f")`, `write("/f", "hello world", 11, 0)`. -/
def img_f_hello_world : Option Image :=
  img_f.bind fun i => image_of (a1fs_write i (cstr "/f") (cstr "hello world") 0 clock0)

/-- `mkdir("/ ")` on a fresh image: a directory whose name is one space. -/
def img_space_dir : Option Image := image_of (a1fs_mkdir fresh (cstr "/ ") 0o755 clock0)

/-- `create("/ ")` on a fresh image: a file whose name is one space. -/
def img_space_file : Option Image := image_of (a1fs_create fresh (cstr "/ ") reg_mode clock0)

/-- `create` of the `n` files `"/c"`, `"/d"`, ... (one-byte names from byte `c`
on), in this order. -/
def create_files (img : Image) (c : Nat) : Nat → Option Image
  | 0 => some img
  | n + 1 =>
    (create_files img c n).bind fun i => image_of (a1fs_create i [47, c + n] reg_mode clock0)

/-- `unlink` of the `n` files `"/c"`, `"/d"`, ..., in this order. -/
def unlink_files (img : Image) (c : Nat) : Nat → Option Image
  | 0 => some img
  | n + 1 =>
    (unlink_files img c n).bind fun i => image_of (a1fs_unlink i [47, c + n] clock0)

/-- An inode index reused with its old extent list: `create("/f")`,
`write("/f", "x", 1, 0)`, `unlink("/f")`, `mkdir("/d")`, `mkdir("/e")`,
`mkdir("/e/y")`. -/
def img_reused_inode : Option Image :=
  (((((img_f.bind fun i => image_of (a1fs_write i (cstr "/f") (cstr "x") 0 clock0)).bind
    fun i => image_of (a1fs_unlink i (cstr "/f") clock0)).bind
    fun i => image_of (a1fs_mkdir i (cstr "/d") 0o755 clock0)).bind
    fun i => image_of (a1fs_mkdir i (cstr "/e") 0o755 clock0)).bind
    fun i => image_of (a1fs_mkdir i (cstr "/e/y") 0o755 clock0))

/-- The popcounts of the inode bitmap and of the block bitmap. -/
def popcounts (img : Image) : Nat × Nat :=
  (popcount img.inode_bitmap img.sp.s_inodes_count,
   popcount img.data_bitmap img.sp.datablocks_count)

/-- The image that holds the file `"/f"` with the content `"hello"`. -/
def img_hello : Image := img_f_hello.getD fresh

/-- A call of one of the mutating operations of the driver. -/
inductive Op where
  | mkdir (path : List Nat) (mode : Nat)
  | create (path : List Nat) (mode : Nat)
  | rmdir (path : List Nat)
  | unlink (path : List Nat)
  | truncate (path : List Nat) (size : Nat)
  | write (path : List Nat) (buf : List Nat) (offset : Nat)

/-- The call `op` on the image `img`, with `now` the time of the clock. -/
def apply_op (img : Image) (now : timespec) : Op → Option (Int × Image)
  | .mkdir path mode => a1fs_mkdir img path mode now
  | .create path mode => a1fs_create img path mode now
  | .rmdir path => a1fs_rmdir img path now
  | .unlink path => a1fs_unlink img path now
  | .truncate path size => a1fs_truncate img path size now
  | .write path buf offset => a1fs_write img path buf offset now

/-- A sequence of calls, each on the image the one before left, whatever the
calls return. -/
def run_ops (now : timespec) : List Op → Image → Option Image
  | [], img => some img
  | op :: rest, img => (apply_op img now op).bind fun r => run_ops now rest r.2

/-- `create("/f")`, `truncate("/f", 8192)`: the file `"/f"` with one extent of
two blocks. -/
def img_f_two_blocks : Option Image :=
  img_f.bind fun i => image_of (a1fs_truncate i (cstr "/f") 8192 clock0)

/-- A file with two extents that are not neighbours: `create("/f")`,
`create("/g")`, `write("/f", "a", 1, 0)`, `write("/g", "b", 1, 0)`,
`truncate("/f", 8192)`. -/
def img_two_extents : Option Image :=
  run_ops clock0
    [.create (cstr "/f") reg_mode, .create (cstr "/g") reg_mode,
     .write (cstr "/f") (cstr "a") 0, .write (cstr "/g") (cstr "b") 0,
     .truncate (cstr "/f") 8192] fresh

/-- A fresh image whose block bitmap is the byte `0xFE`: of its 8 blocks only
the last one is free. -/
def img_last_free : Image :=
  { fresh with data_bitmap := fun k => if k = 0 then 0xFE else 0 }

/-- A fresh image whose inode bitmap is the byte `0xFF`: all 8 inodes are in
use. -/
def img_inodes_full : Image :=
  { fresh with inode_bitmap := fun k => if k = 0 then 0xFF else 0 }

/-- A fresh image with a single inode, the root, and 8 data blocks. -/
def img_one_inode : Image := mkfs 1 8

/-- A full image in which the extent of `"/f"` covers a block that is not the
file's: `create("/f")`, `truncate("/f", 8192)`, `truncate("/f", 100)`,
`create("/g")`, `truncate("/g", 12288)`. -/
def img_shrunk_full : Option Image :=
  run_ops clock0
    [.create (cstr "/f") reg_mode, .truncate (cstr "/f") 8192, .truncate (cstr "/f") 100,
     .create (cstr "/g") reg_mode, .truncate (cstr "/g") 12288] fresh

/-- An image of 5 data blocks whose only free block is the last one:
`create("/f")`, `write("/f", "a", 1, 0)`. -/
def img_last_block_free : Option Image :=
  run_ops clock0 [.create (cstr "/f") reg_mode, .write (cstr "/f") (cstr "a") 0] (mkfs 8 5)

/-- The data region of `img_list_full`: the extent list of the root in block
0 (one extent, block 1), the entry `("f", 1)` at the start of block 1, and in
block 2 the extent list of the file, extent `j` being the single block
`3 + j`; every other byte is zero. -/
def list_full_data : Mem := fun x =>
  if x < 8 then [0, 16, 0, 0, 1, 0, 0, 0].getD x 0
  else if 4096 ≤ x ∧ x < 4102 then [1, 0, 0, 0, 102, 0].getD (x - 4096) 0
  else if 8192 ≤ x ∧ x < 12288 then
    if (x - 8192) % 8 < 4 then (3 + (x - 8192) / 8) * 4096 / 256 ^ ((x - 8192) % 8) % 256
    else if (x - 8192) % 8 = 4 then 1 else 0
  else 0

/-- An image of 520 data blocks with the file `"/f"` (inode 1) of 512 blocks
in 512 extents of one block each, which fill its extent-list block; the
blocks 0 to 514 are allocated. It is the layout that `create("/f")` and 512
calls of `truncate`, each growing the file by one block, build. -/
def img_list_full : Image where
  size := 524 * A1FS_BLOCK_SIZE
  sp := ⟨8, 520, 2, 0⟩
  inode_bitmap := fun k => if k = 0 then 0xC0 else 0
  data_bitmap := fun k => if k < 64 then 0xFF else if k = 64 then 0xE0 else 0
  inodes := fun k =>
    if k = 0 then ⟨S_IFDIR ||| 0o777, 2, 256, clock0, 0, 1⟩
    else if k = 1 then ⟨reg_mode, 1, 512 * 4096, clock0, 8192, 512⟩
    else ⟨0, 0, 0, ⟨0, 0⟩, 0, 0⟩
  data := list_full_data

/-- A path of exactly `A1FS_PATH_MAX` bytes: `"/"` followed by 4095 times
`"a"`. -/
def path_of_limit : List Nat := 47 :: List.replicate 4095 97

/-- A file on a reused inode: `create("/f")`, `write("/f", "x", 1, 0)`,
`unlink("/f")`, `create("/g")`. The file `"/g"` gets inode 1 again. -/
def img_reused_file : Option Image :=
  run_ops clock0
    [.create (cstr "/f") reg_mode, .write (cstr "/f") (cstr "x") 0, .unlink (cstr "/f"),
     .create (cstr "/g") reg_mode] fresh

/-- An image of 12 data blocks in which the free block 7 follows the block 6
of the file `"/g"`, whose last byte is `'Z'`: `create` of `"/a"`, `"/g"`,
`"/h"`, `"/f"`, `truncate("/a", 8192)`, `truncate("/g", 8192)`,
`write("/g", "Z", 1, 4095)`, `write("/h", "y", 1, 0)`, `truncate("/g", 4096)`,
`unlink("/a")`. -/
def img_hole_after_g : Option Image :=
  run_ops clock0
    [.create (cstr "/a") reg_mode, .create (cstr "/g") reg_mode, .create (cstr "/h") reg_mode,
     .create (cstr "/f") reg_mode, .truncate (cstr "/a") 8192, .truncate (cstr "/g") 8192,
     .write (cstr "/g") (cstr "Z") 4095, .write (cstr "/h") (cstr "y") 0,
     .truncate (cstr "/g") 4096, .unlink (cstr "/a")] (mkfs 8 12)

/-- A root directory with a tombstone in slot 0, followed in the data region
by the extent-list block of a file: `create("/a")`, `create("/c")`,
`write("/c", "x", 1, 0)`, `unlink("/a")`. -/
def img_tombstone_root : Option Image :=
  run_ops clock0
    [.create (cstr "/a") reg_mode, .create (cstr "/c") reg_mode,
     .write (cstr "/c") (cstr "x") 0, .unlink (cstr "/a")] fresh

/-! ## Theorems -/

/-! ### The superblock counters

No function of the driver writes `blocks_usd`; the lemmas follow the
superblock through every helper and operation. -/

theorem upd_inode_sp (img : Image) (i : Nat) (f : a1fs_inode → a1fs_inode) :
    (upd_inode img i f).sp = img.sp := rfl

theorem set_single_bitmap_sp {img img1 : Image} {b : Bool} {i : Nat}
    (h : set_single_bitmap img b = some (i, img1)) : img1.sp = img.sp := by
  unfold set_single_bitmap at h
  split at h
  · split at h
    · simp at h
    · simp at h; rw [← h.2]
  · split at h
    · simp at h
    · simp at h; rw [← h.2]

theorem set_inode_bitmap_sp {img img1 : Image} {i : Nat}
    (h : set_inode_bitmap img = some (i, img1)) : img1.sp = img.sp := by
  unfold set_inode_bitmap at h
  split at h
  · simp at h
  · simp at h; rw [← h.2]

theorem rm_single_bitmap_sp (img : Image) (i : Nat) (b : Bool) :
    (rm_single_bitmap img i b).sp = img.sp := by
  unfold rm_single_bitmap
  split <;> split <;> rfl

theorem rm_inode_bitmap_sp (img : Image) (i : Nat) :
    (rm_inode_bitmap img i).sp = img.sp := by
  unfold rm_inode_bitmap
  split <;> rfl

theorem first_extent_sp (img : Image) (p : Nat) : (first_extent img p).2.sp = img.sp := by
  unfold first_extent
  split
  · split
    · rfl
    · rename_i i img1 h1
      dsimp only
      split
      · simp [upd_inode_sp, set_single_bitmap_sp h1]
      · rename_i j img3 h3
        simp only [upd_inode_sp]
        rw [set_single_bitmap_sp h3, upd_inode_sp, set_single_bitmap_sp h1]
  · rfl

theorem add_entry_sp {img img1 : Image} {p : Nat} {path : List Nat} {ino : Nat}
    (h : add_entry img p path ino = some img1) : img1.sp = img.sp := by
  unfold add_entry at h
  simp only at h
  split at h
  · simp at h; rw [← h]
  · split at h
    · simp at h
    · rename_i i img2 h2
      simp at h
      rw [← h]
      simp only [upd_inode_sp]
      exact set_single_bitmap_sp h2


theorem finish_create_blocks (img : Image) (p i mode links : Nat) (now : timespec) :
    (finish_create img p i mode links now).sp.blocks_usd = img.sp.blocks_usd := rfl

theorem tombstone_entries_sp (img : Image) (start target n : Nat) :
    (tombstone_entries img start target n).sp = img.sp := by
  unfold tombstone_entries
  split <;> rfl

theorem swap_extent_sp (img : Image) (a p : Nat) : (swap_extent img a p).sp = img.sp := rfl

theorem remove_loop_sp (p target : Nat) (fuel j : Nat) (img : Image) :
    (remove_loop p target fuel j img).sp = img.sp := by
  induction fuel generalizing j img with
  | zero => rfl
  | succ fuel ih =>
    rw [remove_loop]
    split
    · dsimp only
      split
      · rw [ih, upd_inode_sp, swap_extent_sp, rm_single_bitmap_sp, tombstone_entries_sp]
      · rw [ih, tombstone_entries_sp]
    · rfl

theorem rm_target_loop_sp (inode : a1fs_inode) (k i : Nat) (img : Image) :
    (rm_target_loop inode k i img).sp = img.sp := by
  induction k generalizing i img with
  | zero => rfl
  | succ k ih =>
    rw [rm_target_loop]
    rw [ih, rm_single_bitmap_sp]
    rfl

theorem remove_entry_blocks (img : Image) (p target : Nat) (now : timespec) :
    (remove_entry img p target now).sp.blocks_usd = img.sp.blocks_usd := by
  unfold remove_entry
  dsimp only
  split
  · rw [rm_single_bitmap_sp, remove_loop_sp, upd_inode_sp]; rfl
  · rw [remove_loop_sp, upd_inode_sp]; rfl

theorem rm_target_sp (img : Image) (inode : a1fs_inode) : (rm_target img inode).sp = img.sp :=
  rm_target_loop_sp _ _ _ _

theorem set_multiple_sp (img : Image) (e : a1fs_extent) :
    (set_multiple_data_bitmap img e).sp = img.sp := rfl

theorem rm_multiple_sp (img : Image) (e : a1fs_extent) :
    (rm_multiple_data_bitmap img e).sp = img.sp := rfl

theorem allocate_extent_sp (img : Image) (t b : Nat) (e : a1fs_extent) :
    (allocate_extent img t b e).1.sp = img.sp := by
  simp only [allocate_extent, upd_inode_sp]

theorem grow_loop_sp (t : Nat) (l : List a1fs_extent) (r : Nat) (img img1 : Image)
    (h : grow_loop t l r img = some img1) : img1.sp = img.sp := by
  induction l generalizing r img with
  | nil =>
    cases r with
    | zero => rw [grow_loop] at h; cases h; rfl
    | succ r => rw [grow_loop] at h; cases h
  | cons e rest ih =>
    cases r with
    | zero => rw [grow_loop] at h; cases h; rfl
    | succ r =>
      rw [grow_loop] at h
      exact (ih _ _ h).trans rfl

theorem a1fs_mkdir_blocks {img : Image} {path : List Nat} {mode : Nat} {now : timespec}
    {r : Int × Image} (h : a1fs_mkdir img path mode now = some r) :
    r.2.sp.blocks_usd = img.sp.blocks_usd := by
  rw [a1fs_mkdir] at h
  split at h
  · cases h
  · rename_i p _
    have hfe := first_extent_sp img p
    split at h
    · rename_i img1 hf
      cases h
      rw [hf] at hfe
      exact congrArg _ hfe
    · rename_i img1 hf
      rw [hf] at hfe
      dsimp only at h
      split at h
      · cases h
        show (upd_inode _ _ _).sp.blocks_usd = _
        rw [upd_inode_sp]; exact congrArg _ hfe
      · rename_i i img3 hs
        have h3 := set_inode_bitmap_sp hs
        rw [upd_inode_sp] at h3
        split at h
        · cases h
        · split at h
          · cases h
            rw [h3]; exact congrArg _ hfe
          · rename_i img4 ha
            cases h
            rw [finish_create_blocks, add_entry_sp ha, h3]
            exact congrArg _ hfe

theorem a1fs_create_blocks {img : Image} {path : List Nat} {mode : Nat} {now : timespec}
    {r : Int × Image} (h : a1fs_create img path mode now = some r) :
    r.2.sp.blocks_usd = img.sp.blocks_usd := by
  rw [a1fs_create] at h
  split at h
  · cases h
  · split at h
    · cases h
    · rename_i p _
      have hfe := first_extent_sp img p
      split at h
      · rename_i img1 hf
        cases h
        rw [hf] at hfe
        exact congrArg _ hfe
      · rename_i img1 hf
        rw [hf] at hfe
        split at h
        · cases h
          exact congrArg _ hfe
        · rename_i i img3 hs
          have h3 := set_inode_bitmap_sp hs
          split at h
          · cases h
          · split at h
            · cases h
              rw [h3]; exact congrArg _ hfe
            · rename_i img4 ha
              cases h
              rw [finish_create_blocks, add_entry_sp ha, h3]
              exact congrArg _ hfe

theorem a1fs_rmdir_blocks {img : Image} {path : List Nat} {now : timespec}
    {r : Int × Image} (h : a1fs_rmdir img path now = some r) :
    r.2.sp.blocks_usd = img.sp.blocks_usd := by
  rw [a1fs_rmdir] at h
  split at h
  · cases h
  · split at h
    · split at h
      · cases h; rfl
      · cases h
        rw [remove_entry_blocks, rm_inode_bitmap_sp]
    · cases h

theorem a1fs_unlink_blocks {img : Image} {path : List Nat} {now : timespec}
    {r : Int × Image} (h : a1fs_unlink img path now = some r) :
    r.2.sp.blocks_usd = img.sp.blocks_usd := by
  rw [a1fs_unlink] at h
  split at h
  · cases h
  · split at h
    · cases h
      show (remove_entry _ _ _ _).sp.blocks_usd = _
      rw [remove_entry_blocks, rm_target_sp, rm_inode_bitmap_sp]
    · cases h

theorem truncate_grow_sp {img : Image} {t size : Nat} {r : Int × Image}
    (h : truncate_grow img t size = some r) : r.2.sp = img.sp := by
  rw [truncate_grow] at h
  dsimp only at h
  split at h
  · cases h; rfl
  · rename_i img1 hi
    have h1 : img1.sp = img.sp := by
      split at hi
      · split at hi
        · cases hi
        · rename_i i im hs
          cases hi
          rw [upd_inode_sp]; exact set_single_bitmap_sp hs
      · cases hi; rfl
    split at h
    · cases h
    · split at h
      · cases h; exact h1
      · split at h
        · cases h
        · rename_i img2 hg
          have h2 := grow_loop_sp _ _ _ _ _ hg
          split at h
          · cases h
          · split at h
            · split at h
              · cases h
              · cases h
                exact h2.trans h1
            · split at h
              · cases h
              · cases h
                exact h2.trans h1

theorem truncate_shrink_sp (img : Image) (t size : Nat) :
    (truncate_shrink img t size).2.sp = img.sp := by
  rw [truncate_shrink]
  dsimp only
  split
  · split <;> rfl
  · split <;> rfl

theorem a1fs_truncate_blocks {img : Image} {path : List Nat} {size : Nat} {now : timespec}
    {r : Int × Image} (h : a1fs_truncate img path size now = some r) :
    r.2.sp.blocks_usd = img.sp.blocks_usd := by
  rw [a1fs_truncate] at h
  split at h
  · cases h
  · split at h
    · exact a1fs_unlink_blocks h
    · split at h
      · cases h; rfl
      · split at h
        · exact congrArg _ (truncate_grow_sp h)
        · cases h
          exact congrArg _ (truncate_shrink_sp _ _ _)

theorem a1fs_write_blocks {img : Image} {path : List Nat} {buf : List Nat} {offset : Nat}
    {now : timespec} {r : Int × Image} (h : a1fs_write img path buf offset now = some r) :
    r.2.sp.blocks_usd = img.sp.blocks_usd := by
  rw [a1fs_write] at h
  split at h
  · cases h
  · dsimp only at h
    split at h
    · cases h
    · rename_i img1 hi
      have h1 : img1.sp.blocks_usd = img.sp.blocks_usd := by
        split at hi
        · split at hi
          · cases hi
          · generalize (to_int (buf.length + offset)).toNat = new_size at hi
            cases ht : a1fs_truncate img path new_size now with
            | none => rw [ht] at hi; cases hi
            | some q =>
              rw [ht] at hi
              cases hi
              exact a1fs_truncate_blocks ht
        · cases hi; rfl
      split at h
      · cases h
      · split at h
        · cases h; exact h1
        · cases h; exact h1

theorem apply_op_blocks {img : Image} {now : timespec} {op : Op} {r : Int × Image}
    (h : apply_op img now op = some r) : r.2.sp.blocks_usd = img.sp.blocks_usd := by
  cases op with
  | mkdir path mode => exact a1fs_mkdir_blocks h
  | create path mode => exact a1fs_create_blocks h
  | rmdir path => exact a1fs_rmdir_blocks h
  | unlink path => exact a1fs_unlink_blocks h
  | truncate path size => exact a1fs_truncate_blocks h
  | write path buf offset => exact a1fs_write_blocks h

theorem run_ops_blocks (now : timespec) (ops : List Op) (img img1 : Image)
    (h : run_ops now ops img = some img1) : img1.sp.blocks_usd = img.sp.blocks_usd := by
  induction ops generalizing img with
  | nil => rw [run_ops] at h; cases h; rfl
  | cons op rest ih =>
    rw [run_ops] at h
    cases hop : apply_op img now op with
    | none => rw [hop] at h; cases h
    | some r =>
      rw [hop] at h
      exact (ih r.2 h).trans (apply_op_blocks hop)

/-! ### `a1fs_truncate` and the walk of `a1fs_getattr` -/

theorem lookup_extents_congr (m : Mem) (c1 c2 : a1fs_inode) (h : c1.extend_pt = c2.extend_pt)
    (token : List Nat) (k j : Nat) :
    lookup_extents m c1 token k j = lookup_extents m c2 token k j := by
  induction k generalizing j with
  | zero => rfl
  | succ k ih =>
    rw [lookup_extents, lookup_extents]
    simp only [inode_extent, h, ih]

theorem getattr_walk_congr (img1 img2 : Image) (hd : img1.data = img2.data)
    (hi : ∀ k, (img1.inodes k).mode = (img2.inodes k).mode ∧
      (img1.inodes k).extent_used = (img2.inodes k).extent_used ∧
      (img1.inodes k).extend_pt = (img2.inodes k).extend_pt)
    (toks : List (List Nat)) (c : Nat) :
    getattr_walk img1 toks c = getattr_walk img2 toks c := by
  induction toks generalizing c with
  | nil => rfl
  | cons token rest ih =>
    rw [getattr_walk, getattr_walk]
    have h1 : is_dir (img1.inodes c) = is_dir (img2.inodes c) := by
      simp only [is_dir, (hi c).1]
    rw [h1, hd, (hi c).2.1, lookup_extents_congr _ _ _ (hi c).2.2]
    split
    · rfl
    · split
      · exact ih _
      · rfl

theorem truncate_shrink_frame (img : Image) (t size : Nat) :
    (truncate_shrink img t size).2.data = img.data ∧
    (∀ k, ((truncate_shrink img t size).2.inodes k).mode = (img.inodes k).mode ∧
      ((truncate_shrink img t size).2.inodes k).extent_used = (img.inodes k).extent_used ∧
      ((truncate_shrink img t size).2.inodes k).extend_pt = (img.inodes k).extend_pt) ∧
    ((truncate_shrink img t size).2.inodes t).size = size ∧
    (truncate_shrink img t size).1 = 0 := by
  rw [truncate_shrink]
  dsimp only
  have key : ∀ (i : Image), i.data = img.data → i.inodes = img.inodes →
      (upd_inode i t fun n => { n with size := size }).data = img.data ∧
      (∀ k, ((upd_inode i t fun n => { n with size := size }).inodes k).mode
          = (img.inodes k).mode ∧
        ((upd_inode i t fun n => { n with size := size }).inodes k).extent_used
          = (img.inodes k).extent_used ∧
        ((upd_inode i t fun n => { n with size := size }).inodes k).extend_pt
          = (img.inodes k).extend_pt) ∧
      ((upd_inode i t fun n => { n with size := size }).inodes t).size = size := by
    intro i hd hn
    refine ⟨hd, ?_, ?_⟩
    · intro k
      by_cases hk : k = t <;> simp [upd_inode, hk, hn]
    · simp [upd_inode]
  split
  · rename_i h1
    split
    · rename_i h2
      exact absurd h1 (not_le.mpr h2)
    · obtain ⟨a, b, c⟩ := key img rfl rfl
      exact ⟨a, b, c, rfl⟩
  · rename_i h1
    split
    · obtain ⟨a, b, c⟩ := key img rfl rfl
      exact ⟨a, b, c, rfl⟩
    · rename_i h2
      exact absurd (not_lt.mp h2) h1


theorem truncate_grow_size {img : Image} {t size : Nat} {r : Int × Image}
    (h : truncate_grow img t size = some r) (h0 : r.1 = 0) : (r.2.inodes t).size = size := by
  rw [truncate_grow] at h
  dsimp only at h
  split at h
  · cases h; exact absurd h0 (show (-ENOSPC : Int) ≠ 0 by decide)
  · split at h
    · cases h
    · split at h
      · cases h; exact absurd h0 (show (-ENOSPC : Int) ≠ 0 by decide)
      · split at h
        · cases h
        · split at h
          · cases h
          · split at h
            · split at h
              · cases h
              · cases h
                simp [upd_inode]
            · split at h
              · cases h
              · cases h
                simp [upd_inode]

theorem a1fs_truncate_cases (now : timespec) {img : Image} {path : List Nat} {n t : Nat}
    (ht : get_inode_result img path = some t) (hn : 0 < n)
    (hb : int_blocks_of (img.inodes t).size ≠ int_blocks_of n) :
    a1fs_truncate img path n now =
      if int_blocks_of (img.inodes t).size < int_blocks_of n then truncate_grow img t n
      else some (truncate_shrink img t n) := by
  rw [a1fs_truncate, ht]
  simp only [Nat.pos_iff_ne_zero.mp hn, hb, if_false]

/-- A block count below `2^31` is stored in an `int` unchanged. -/
theorem int_blocks_of_small {size : Nat} (h : blocks_of size < 2147483648) :
    int_blocks_of size = (blocks_of size : Int) := by
  unfold int_blocks_of to_int
  rw [Nat.mod_eq_of_lt (by omega), if_pos h]

/-! ### Single bits of a bitmap

Bit `i` of a bitmap is bit `7 - i % 8` of byte `i / 8`. -/

theorem bit_set_eq_testBit (bm : Bitmap) (i : Nat) :
    bit_set bm i = (bm (i / 8)).testBit (7 - i % 8) := by
  rw [bit_set, Nat.one_shiftLeft, Nat.and_two_pow]
  cases h : (bm (i / 8)).testBit (7 - i % 8) <;> simp

theorem index_eq_of_parts {i j : Nat} (h1 : j / 8 = i / 8) (h2 : 7 - j % 8 = 7 - i % 8) :
    j = i := by
  omega

theorem bit_set_set_bit (bm : Bitmap) (i j : Nat) :
    bit_set (set_bit bm i) j = (decide (j = i) || bit_set bm j) := by
  rw [bit_set_eq_testBit, bit_set_eq_testBit, set_bit]
  by_cases hk : j / 8 = i / 8
  · rw [if_pos hk, Nat.one_shiftLeft, Nat.testBit_or, Nat.testBit_two_pow, Bool.or_comm]
    congr 1
    by_cases hji : j = i
    · subst hji
      simp
    · have : ¬ (7 - i % 8 = 7 - j % 8) := fun h => hji (index_eq_of_parts hk h.symm)
      simp [hji, this]
  · rw [if_neg hk]
    have hji : j ≠ i := fun h => hk (by rw [h])
    simp [hji]

theorem set_first_free_some (bm : Bitmap) : ∀ (k i0 i : Nat), i0 ≤ i → i < i0 + k →
    bit_set bm i = false → (∀ j, i0 ≤ j → j < i → bit_set bm j = true) →
    set_first_free bm k i0 = some (i, set_bit bm i) := by
  intro k
  induction k with
  | zero => intro i0 i h1 h2; omega
  | succ k ih =>
    intro i0 i h1 h2 hc hs
    rw [set_first_free]
    by_cases h : i0 = i
    · subst h
      rw [hc]
      rfl
    · rw [hs i0 (le_refl _) (by omega), if_pos rfl]
      exact ih (i0 + 1) i (by omega) (by omega) hc fun j hj1 hj2 => hs j (by omega) hj2

theorem set_first_free_none (bm : Bitmap) : ∀ (k i0 : Nat),
    (∀ j, i0 ≤ j → j < i0 + k → bit_set bm j = true) → set_first_free bm k i0 = none := by
  intro k
  induction k with
  | zero => intro i0 _; rfl
  | succ k ih =>
    intro i0 hs
    rw [set_first_free, hs i0 (le_refl _) (by omega), if_pos rfl]
    exact ih (i0 + 1) fun j hj1 hj2 => hs j (by omega) (by omega)

theorem exists_first_clear (bm : Bitmap) (n : Nat) (h : ∃ i, i < n ∧ bit_set bm i = false) :
    ∃ i, i < n ∧ bit_set bm i = false ∧ ∀ j, j < i → bit_set bm j = true := by
  classical
  refine ⟨Nat.find h, (Nat.find_spec h).1, (Nat.find_spec h).2, ?_⟩
  intro j hj
  have hm := Nat.find_min h hj
  have hjn : j < n := lt_trans hj (Nat.find_spec h).1
  cases hb : bit_set bm j
  · exact absurd ⟨hjn, hb⟩ hm
  · rfl

/-! ### The bitmaps under `a1fs_unlink`

The removal of an entry and the release of the target write no inode bit and
set no block bit. -/

theorem upd_inode_self (img : Image) (i : Nat) (f : a1fs_inode → a1fs_inode) :
    (upd_inode img i f).inodes i = f (img.inodes i) := by
  simp [upd_inode]

theorem set_first_free_full (bm : Bitmap) : ∀ (k i0 : Nat),
    set_first_free bm k i0 = none → ∀ j, i0 ≤ j → j < i0 + k → bit_set bm j = true := by
  intro k
  induction k with
  | zero => intro i0 _ j h1 h2; omega
  | succ k ih =>
    intro i0 h j h1 h2
    rw [set_first_free] at h
    split at h
    · rename_i hb
      by_cases hj : j = i0
      · rw [hj]; exact hb
      · exact ih (i0 + 1) h j (by omega) (by omega)
    · cases h

theorem set_single_bitmap_false_full (img : Image) (h : set_single_bitmap img false = none) :
    ∀ i, i < img.sp.datablocks_count → bit_set img.data_bitmap i = true := by
  intro i hi
  apply set_first_free_full img.data_bitmap img.sp.datablocks_count 0 _ i (Nat.zero_le _) (by omega)
  simp only [set_single_bitmap, Bool.false_eq_true, if_false] at h
  split at h
  · assumption
  · cases h

theorem set_single_bitmap_inodes {img img1 : Image} {b : Bool} {i : Nat}
    (h : set_single_bitmap img b = some (i, img1)) : img1.inodes = img.inodes := by
  unfold set_single_bitmap at h
  split at h
  · split at h
    · cases h
    · cases h; rfl
  · split at h
    · cases h
    · cases h; rfl

theorem allocate_extent_inode (img : Image) (t b : Nat) (e : a1fs_extent) :
    ((allocate_extent img t b e).1.inodes t).extent_used = (img.inodes t).extent_used + 1 ∧
    ((allocate_extent img t b e).1.inodes t).extend_pt = (img.inodes t).extend_pt := by
  unfold allocate_extent
  dsimp only
  rw [upd_inode_self]
  exact ⟨rfl, rfl⟩

theorem grow_loop_extent_used (t : Nat) (l : List a1fs_extent) : ∀ (r : Nat) (img img1 : Image),
    grow_loop t l r img = some img1 →
    (img.inodes t).extent_used ≤ (img1.inodes t).extent_used ∧
    (0 < r → (img.inodes t).extent_used < (img1.inodes t).extent_used) := by
  induction l with
  | nil =>
    intro r img img1 h
    cases r with
    | zero => rw [grow_loop] at h; cases h; exact ⟨le_refl _, fun h => absurd h (by omega)⟩
    | succ r => rw [grow_loop] at h; cases h
  | cons e rest ih =>
    intro r img img1 h
    cases r with
    | zero => rw [grow_loop] at h; cases h; exact ⟨le_refl _, fun h => absurd h (by omega)⟩
    | succ r =>
      have ha := (allocate_extent_inode img t (r + 1) e).1
      rw [grow_loop] at h
      generalize allocate_extent img t (r + 1) e = res at h ha
      obtain ⟨img2, leftover⟩ := res
      dsimp only at h ha
      have h1 : (img2.inodes t).extent_used ≤ (img1.inodes t).extent_used := (ih _ _ _ h).1
      exact ⟨by omega, fun _ => by omega⟩

theorem truncate_grow_result {img : Image} {t size : Nat} {r : Int × Image}
    (h : truncate_grow img t size = some r)
    (hlt : int_blocks_of (img.inodes t).size < int_blocks_of size) :
    (r.1 = 0 ∨ r.1 = -ENOSPC) ∧
    (r.1 = 0 → (img.inodes t).extent_used < (r.2.inodes t).extent_used) ∧
    (r.1 = -ENOSPC →
      (∀ i, i < r.2.sp.datablocks_count → bit_set r.2.data_bitmap i = true) ∨
      (sum_extents (find_free_extents r.2) : Int) <
        int_blocks_of size - int_blocks_of (img.inodes t).size) := by
  rw [truncate_grow] at h
  dsimp only at h
  split at h
  · rename_i hi
    cases h
    refine ⟨Or.inr rfl, fun h0 => absurd h0 (show (-ENOSPC : Int) ≠ 0 by decide), fun _ => ?_⟩
    left
    split at hi
    · split at hi
      · rename_i hs
        exact set_single_bitmap_false_full img hs
      · cases hi
    · cases hi
  · rename_i img1 hi
    have h1 : (img1.inodes t).extent_used = (img.inodes t).extent_used := by
      split at hi
      · split at hi
        · cases hi
        · rename_i i im hs
          cases hi
          rw [upd_inode_self]
          show (im.inodes t).extent_used = _
          rw [set_single_bitmap_inodes hs]
      · cases hi; rfl
    split at h
    · cases h
    · split at h
      · rename_i hsum
        cases h
        exact ⟨Or.inr rfl, fun h0 => absurd h0 (show (-ENOSPC : Int) ≠ 0 by decide),
          fun _ => Or.inr hsum⟩
      · split at h
        · cases h
        · rename_i img2 hg
          have h2 := (grow_loop_extent_used _ _ _ _ _ hg).2 (by omega)
          rw [h1] at h2
          have h3 : ((upd_inode img2 t fun n =>
              { mode := n.mode, links := n.links, size := size, mtime := n.mtime,
                extend_pt := n.extend_pt, extent_used := n.extent_used }).inodes t).extent_used
              = (img2.inodes t).extent_used := by
            rw [upd_inode_self]
          split at h
          · cases h
          · split at h
            · split at h
              · cases h
              · cases h
                refine ⟨Or.inl rfl, fun _ => ?_,
                  fun h0 => absurd h0 (show ¬ ((0 : Int) = -ENOSPC) by decide)⟩
                exact lt_of_lt_of_eq h2 h3.symm
            · split at h
              · cases h
              · cases h
                refine ⟨Or.inl rfl, fun _ => ?_,
                  fun h0 => absurd h0 (show ¬ ((0 : Int) = -ENOSPC) by decide)⟩
                exact lt_of_lt_of_eq h2 h3.symm

theorem set_inode_bitmap_full (img : Image) (h : set_inode_bitmap img = none) :
    ∀ i, i < img.sp.s_inodes_count → bit_set img.inode_bitmap i = true := by
  intro i hi
  apply set_first_free_full img.inode_bitmap img.sp.s_inodes_count 0 _ i (Nat.zero_le _) (by omega)
  simp only [set_inode_bitmap] at h
  split at h
  · assumption
  · cases h

theorem first_extent_false_full (img : Image) (p : Nat) (h : (first_extent img p).1 = false) :
    ∀ i, i < (first_extent img p).2.sp.datablocks_count →
      bit_set (first_extent img p).2.data_bitmap i = true := by
  unfold first_extent at h ⊢
  split at h
  · rw [if_pos (by assumption)]
    split at h
    · rename_i h1
      exact set_single_bitmap_false_full img h1
    · rename_i i1 img1 h1
      dsimp only at h ⊢
      split at h
      · rename_i h2
        exact set_single_bitmap_false_full _ h2
      · cases h
  · cases h

theorem add_entry_none_full (img : Image) (p : Nat) (path : List Nat) (ino : Nat)
    (h : add_entry img p path ino = none) :
    ∀ i, i < img.sp.datablocks_count → bit_set img.data_bitmap i = true := by
  unfold add_entry at h
  dsimp only at h
  split at h
  · cases h
  · split at h
    · rename_i h1
      exact set_single_bitmap_false_full img h1
    · cases h

theorem a1fs_mkdir_enospc_full {img : Image} {path : List Nat} {mode : Nat} {now : timespec}
    {r : Int × Image} (h : a1fs_mkdir img path mode now = some r) (he : r.1 = -ENOSPC) :
    (∀ i, i < r.2.sp.datablocks_count → bit_set r.2.data_bitmap i = true) ∨
    (∀ i, i < r.2.sp.s_inodes_count → bit_set r.2.inode_bitmap i = true) := by
  rw [a1fs_mkdir] at h
  split at h
  · cases h
  · rename_i p _
    split at h
    · rename_i img1 hf
      cases h
      left
      have := first_extent_false_full img p (by rw [hf])
      rw [hf] at this
      exact this
    · rename_i img1 hf
      dsimp only at h
      split at h
      · rename_i hs
        cases h
        right
        exact set_inode_bitmap_full _ hs
      · rename_i i img3 hs
        split at h
        · cases h
        · split at h
          · rename_i ha
            cases h
            left
            exact add_entry_none_full _ _ _ _ ha
          · cases h
            exact absurd he (show ¬ ((0 : Int) = -ENOSPC) by decide)

theorem a1fs_create_enospc_full {img : Image} {path : List Nat} {mode : Nat} {now : timespec}
    {r : Int × Image} (h : a1fs_create img path mode now = some r) (he : r.1 = -ENOSPC) :
    (∀ i, i < r.2.sp.datablocks_count → bit_set r.2.data_bitmap i = true) ∨
    (∀ i, i < r.2.sp.s_inodes_count → bit_set r.2.inode_bitmap i = true) := by
  rw [a1fs_create] at h
  split at h
  · cases h
  · split at h
    · cases h
    · rename_i p _
      split at h
      · rename_i img1 hf
        cases h
        left
        have := first_extent_false_full img p (by rw [hf])
        rw [hf] at this
        exact this
      · rename_i img1 hf
        split at h
        · rename_i hs
          cases h
          right
          exact set_inode_bitmap_full _ hs
        · rename_i i img3 hs
          split at h
          · cases h
          · split at h
            · rename_i ha
              cases h
              left
              exact add_entry_none_full _ _ _ _ ha
            · cases h
              exact absurd he (show ¬ ((0 : Int) = -ENOSPC) by decide)

/-! ### Conversions in `a1fs_statfs` -/

theorem int_of_small (n : Nat) (h : n < 2147483648) : int_of (n : Int) = n := by
  unfold int_of
  have h1 : (n : Int) % 4294967296 = n := by omega
  rw [h1, if_pos (by omega)]

theorem to_u64_nat (n : Nat) (h : n < 18446744073709551616) : to_u64 (n : Int) = n := by
  unfold to_u64
  have h1 : (n : Int) % 18446744073709551616 = n := by omega
  rw [h1]
  rfl

theorem to_uint_sub (a b : Nat) (h1 : b ≤ a) (h2 : a < 4294967296) :
    to_uint ((a : Int) - b) = a - b := by
  unfold to_uint
  have h3 : ((a : Int) - b) % 4294967296 = ((a - b : Nat) : Int) := by omega
  rw [h3]
  rfl

/-! ### The errors of the walk of `a1fs_getattr` -/

theorem getattr_walk_error (img : Image) (toks : List (List Nat)) : ∀ (cur : Nat) (e : Int),
    getattr_walk img toks cur = .error e → e = -ENOTDIR ∨ e = -ENOENT := by
  induction toks with
  | nil => intro cur e h; cases h
  | cons tok rest ih =>
    intro cur e h
    rw [getattr_walk] at h
    split at h
    · cases h
      exact Or.inl rfl
    · split at h
      · exact ih _ _ h
      · cases h
        split
        · exact Or.inr rfl
        · exact Or.inl rfl

/-! ### `find_extent`

While the extents of the inode sum to less than `2^31` bytes, the 32-bit
`size` of the loop is the offset plus one minus the bytes of the extents
passed. -/

theorem int_of_id (z : Int) (h1 : -2147483648 ≤ z) (h2 : z < 2147483648) : int_of z = z := by
  unfold int_of
  split <;> omega

theorem blocks_before_succ (m : Mem) (inode : a1fs_inode) (i : Nat) :
    blocks_before m inode (i + 1) = blocks_before m inode i + (inode_extent m inode i).count := by
  simp [blocks_before, List.range_succ]

theorem blocks_before_mono (m : Mem) (inode : a1fs_inode) (i j : Nat) (h : i ≤ j) :
    blocks_before m inode i ≤ blocks_before m inode j := by
  induction j with
  | zero =>
    have : i = 0 := by omega
    rw [this]
  | succ j ih =>
    rcases Nat.lt_or_ge i (j + 1) with h1 | h1
    · have := ih (by omega)
      rw [blocks_before_succ]
      omega
    · have : i = j + 1 := by omega
      rw [this]

theorem find_extent_loop_spec (m : Mem) (inode : a1fs_inode) (offset : Nat) (total : Nat)
    (hfit : 4096 * total < 2147483648) (k : Nat) : ∀ (i : Nat),
    blocks_before m inode (i + k) ≤ total →
    4096 * blocks_before m inode i ≤ offset →
    offset < 4096 * blocks_before m inode (i + k) →
    ∃ e, i ≤ e ∧ e < i + k ∧
      4096 * blocks_before m inode e ≤ offset ∧
      offset < 4096 * blocks_before m inode (e + 1) ∧
      find_extent_loop m inode k i
          (((offset : Int) + 1) - ((4096 * blocks_before m inode i : Nat) : Int))
        = some (e, ((offset - 4096 * blocks_before m inode e : Nat) : Int)) := by
  induction k with
  | zero =>
    intro i _ h2 h3
    rw [Nat.add_zero] at h3
    omega
  | succ k ih =>
    intro i h1 h2 h3
    have hs := blocks_before_succ m inode i
    have hm := blocks_before_mono m inode (i + 1) (i + (k + 1)) (by omega)
    rw [find_extent_loop]
    have hv : int_of (((offset : Int) + 1) - ((4096 * blocks_before m inode i : Nat) : Int)
        - (((inode_extent m inode i).count * A1FS_BLOCK_SIZE : Nat) : Int))
        = ((offset : Int) + 1) - ((4096 * blocks_before m inode (i + 1) : Nat) : Int) := by
      rw [int_of_id]
      · rw [hs]
        simp only [A1FS_BLOCK_SIZE]
        omega
      · simp only [A1FS_BLOCK_SIZE]
        omega
      · simp only [A1FS_BLOCK_SIZE]
        omega
    rw [hv]
    by_cases hgt : ((offset : Int) + 1) - ((4096 * blocks_before m inode (i + 1) : Nat) : Int) > 0
    · rw [if_pos hgt]
      have h1' : blocks_before m inode (i + 1 + k) ≤ total := by
        rw [show i + 1 + k = i + (k + 1) by omega]
        exact h1
      have h3' : offset < 4096 * blocks_before m inode (i + 1 + k) := by
        rw [show i + 1 + k = i + (k + 1) by omega]
        exact h3
      obtain ⟨e, he1, he2, he3, he4, he5⟩ := ih (i + 1) h1' (by omega) h3'
      exact ⟨e, by omega, by omega, he3, he4, he5⟩
    · rw [if_neg hgt]
      refine ⟨i, le_refl _, by omega, h2, by omega, ?_⟩
      rw [int_of_id]
      · congr 2
        simp only [A1FS_BLOCK_SIZE]
        omega
      · simp only [A1FS_BLOCK_SIZE]
        omega
      · simp only [A1FS_BLOCK_SIZE]
        omega

/-! ### `sort_extents`

A pass of the inner loop over the first `k + 1` runs moves one of largest
count to position `k`; after `i` passes of the outer loop the last `i` runs
are in order and not smaller than the others. -/

theorem bubble_pass_perm (k : Nat) : ∀ (l : List a1fs_extent), (bubble_pass k l).Perm l := by
  induction k with
  | zero =>
    intro l
    rw [bubble_pass]
    intro k x y rest h
    cases h
  | succ k ih =>
    intro l
    match l with
    | [] => rw [bubble_pass]; intro k x y rest _ h; cases h
    | [x] => rw [bubble_pass]; intro k x y rest _ h; cases h
    | x :: y :: rest =>
      rw [bubble_pass]
      split
      · exact ((ih (x :: rest)).cons y).trans (List.Perm.swap x y rest)
      · exact (ih (y :: rest)).cons x

theorem bubble_pass_max (k : Nat) : ∀ (pre suf : List a1fs_extent), pre.length = k + 1 →
    ∃ init mx, bubble_pass k (pre ++ suf) = init ++ mx :: suf ∧
      (init ++ [mx]).Perm pre ∧ ∀ x ∈ init, x.count ≤ mx.count := by
  induction k with
  | zero =>
    intro pre suf h
    match pre, h with
    | [x], _ =>
      refine ⟨[], x, ?_, List.Perm.refl _, fun _ hx => by cases hx⟩
      rw [bubble_pass]
      · rfl
      · intro k x y rest h
        cases h
  | succ k ih =>
    intro pre suf h
    match pre, h with
    | x :: y :: pre1, h =>
      have hlen : pre1.length = k := by
        simp only [List.length_cons] at h
        omega
      show ∃ init mx, bubble_pass (k + 1) (x :: y :: (pre1 ++ suf)) = init ++ mx :: suf ∧ _
      rw [bubble_pass]
      split
      · rename_i hgt
        obtain ⟨init, mx, h1, h2, h3⟩ := ih (x :: pre1) suf (by simp [hlen])
        refine ⟨y :: init, mx, ?_, ?_, ?_⟩
        · show y :: bubble_pass k ((x :: pre1) ++ suf) = _
          rw [h1]
          rfl
        · exact ((h2.cons y).trans (List.Perm.swap x y pre1))
        · intro z hz
          have hx : x.count ≤ mx.count := by
            have hmem : x ∈ init ++ [mx] := h2.symm.subset (List.mem_cons_self _ _)
            rcases List.mem_append.mp hmem with hi | hi
            · exact h3 x hi
            · rw [List.mem_singleton.mp hi]
          rcases List.mem_cons.mp hz with hz1 | hz1
          · rw [hz1]
            omega
          · exact h3 z hz1
      · rename_i hle
        obtain ⟨init, mx, h1, h2, h3⟩ := ih (y :: pre1) suf (by simp [hlen])
        refine ⟨x :: init, mx, ?_, ?_, ?_⟩
        · show x :: bubble_pass k ((y :: pre1) ++ suf) = _
          rw [h1]
          rfl
        · exact h2.cons x
        · intro z hz
          have hy : y.count ≤ mx.count := by
            have hmem : y ∈ init ++ [mx] := h2.symm.subset (List.mem_cons_self _ _)
            rcases List.mem_append.mp hmem with hi | hi
            · exact h3 y hi
            · rw [List.mem_singleton.mp hi]
          rcases List.mem_cons.mp hz with hz1 | hz1
          · rw [hz1]
            omega
          · exact h3 z hz1

theorem sort_loop_perm (n : Nat) (k : Nat) : ∀ (i : Nat) (l : List a1fs_extent),
    (sort_loop n k i l).Perm l := by
  induction k with
  | zero => intro i l; rw [sort_loop]
  | succ k ih =>
    intro i l
    rw [sort_loop]
    exact (ih _ _).trans (bubble_pass_perm _ _)

theorem sort_loop_sorted (n : Nat) (k : Nat) : ∀ (i : Nat) (pre suf : List a1fs_extent),
    pre.length + i = n → suf.length = i → pre.length = k + 1 →
    List.Pairwise (fun a b => a.count ≤ b.count) suf →
    (∀ x ∈ pre, ∀ y ∈ suf, x.count ≤ y.count) →
    List.Pairwise (fun a b => a.count ≤ b.count) (sort_loop n k i (pre ++ suf)) := by
  induction k with
  | zero =>
    intro i pre suf _ _ h3 h4 h5
    rw [sort_loop]
    rw [List.pairwise_append]
    refine ⟨?_, h4, h5⟩
    match pre, h3 with
    | [x], _ => exact List.pairwise_singleton _ _
  | succ k ih =>
    intro i pre suf h1 h2 h3 h4 h5
    rw [sort_loop]
    obtain ⟨init, mx, e1, e2, e3⟩ := bubble_pass_max (n - i - 1) pre suf (by omega)
    rw [e1]
    have hl : init.length + 1 = pre.length := by
      have := e2.length_eq
      simpa using this
    have hmx : mx ∈ pre := e2.subset (List.mem_append_right _ (List.mem_singleton_self _))
    have hin : ∀ x ∈ init, x ∈ pre := fun x hx => e2.subset (List.mem_append_left _ hx)
    exact ih (i + 1) init (mx :: suf) (by omega) (by simp [h2]) (by omega)
      (List.pairwise_cons.mpr ⟨fun y hy => h5 mx hmx y hy, h4⟩)
      (fun x hx y hy => by
        rcases List.mem_cons.mp hy with hy1 | hy1
        · rw [hy1]
          exact e3 x hx
        · exact h5 x (hin x hx) y hy1)

/-! ### Runs of bits -/

/-- C1 (fails on the code): on the file `"/f"` holding `"hello"` (size 5),
`a1fs_write("/f", "abc", 3, 5)` returns 3, the size asked for, and the
following `a1fs_read("/f", out, 3, 5)` returns 0 and leaves `out` as it was:
the write stays inside the file's only block, so the size field is never
raised from 5 to 8. -/
theorem C1_write_past_eof_in_block_not_read_back :
    (img_f_hello.bind fun i => a1fs_write i (cstr "/f") (cstr "abc") 5 clock0).map
        (fun r => (r.1, (r.2.inodes 1).size, a1fs_read r.2 (cstr "/f") [0, 0, 0] 5))
      = some (3, 5, some (0, [0, 0, 0])) := by
  decide

/-- C2 (fails on the code): in the image left by `mkdir("/ ")`, the path
`"/ /x"` does not exist (`a1fs_getattr` returns `-ENOENT`) and its parent
`"/ "` is a directory; `a1fs_mkdir("/ /x")` returns 0, yet `a1fs_getattr`
then returns `-ENOTDIR` for `"/ /x"`: `get_inode` skips the entry named `" "`
and takes the root for the parent, where the new entry replaces `" "`. -/
theorem C2_mkdir_under_space_named_directory :
    (img_space_dir.map fun i =>
        ((a1fs_getattr i (cstr "/ ") stat_zero).1, (a1fs_getattr i (cstr "/ ") stat_zero).2.st_mode,
         (a1fs_getattr i (cstr "/ /x") stat_zero).1)) = some (0, S_IFDIR ||| 0o755, -ENOENT) ∧
    (img_space_dir.bind fun i => a1fs_mkdir i (cstr "/ /x") 0o755 clock0).map
        (fun r => (r.1, (a1fs_getattr r.2 (cstr "/ /x") stat_zero).1, (a1fs_getattr r.2 (cstr "/x") stat_zero).1))
      = some (0, -ENOTDIR, 0) := by
  decide

/-- C3 (fails on the code): after `create("/ ")` the root holds the live
entry `(" ", 1)` in slot 0 of its data block (offset 4096) and its size is one
entry. `a1fs_create("/a")` returns 0 and the size grows by one entry, but the
slot search takes the entry `" "` for a tombstone: slot 0 now holds `("a", 2)`
and `"/ "` no longer resolves. -/
theorem C3_insert_overwrites_live_entry :
    (img_space_file.map fun i =>
        ((a1fs_getattr i (cstr "/ ") stat_zero).1, (i.inodes 0).size,
         dentry_name_is i.data (dentry_addr 4096 0) (cstr " "),
         dentry_ino i.data (dentry_addr 4096 0))) = some (0, 256, true, 1) ∧
    (img_space_file.bind fun i => a1fs_create i (cstr "/a") reg_mode clock0).map
        (fun r => (r.1, (r.2.inodes 0).size,
           dentry_name_is r.2.data (dentry_addr 4096 0) (cstr "a"),
           dentry_ino r.2.data (dentry_addr 4096 0), (a1fs_getattr r.2 (cstr "/ ") stat_zero).1))
      = some (0, 512, true, 2, -ENOENT) := by
  decide

/-- C4 (fails on the code): after `mkdir("/ ")` the root has one live entry,
named `" "` (its size is one entry). `a1fs_readdir("/")` returns 0 and passes
to the filler one name, the empty name of the never-used slot 1: the live
entry is skipped as a tombstone and a zeroed slot is emitted in its place. -/
theorem C4_readdir_emits_unused_slot :
    (img_space_dir.map fun i =>
        ((i.inodes 0).size / sizeof_dentry, (a1fs_getattr i (cstr "/ ") stat_zero).1,
         a1fs_readdir i (cstr "/") 16)) = some (1, 0, some (0, [[]])) := by
  decide

/-- C5 (fails on the code): two round trips that do not restore the
popcounts `(inode bitmap, block bitmap)`.  On a fresh image they are `(1, 0)`;
`mkdir("/ ")` returns 0, `rmdir("/ ")` returns `-ENOTEMPTY` (`get_inode` skips
the entry `" "` and takes the root for the target) and they stay `(2, 2)`.
In the image `img_reused_inode` they are `(4, 4)`; `mkdir("/d/x")` and
`rmdir("/d/x")` both return 0 and leave `(4, 2)`: the inode of `"/d"` was
reused with the extent list of the unlinked file, which `"/e"` now owns, and
`rmdir` clears the bits of the blocks of `"/e"`. -/
theorem C5_mkdir_rmdir_popcounts_differ :
    popcounts fresh = (1, 0) ∧
    (img_space_dir.bind fun i => a1fs_rmdir i (cstr "/ ") clock0).map
        (fun r => (r.1, popcounts r.2)) = some (-ENOTEMPTY, 2, 2) ∧
    (img_reused_inode.map fun i => ((a1fs_getattr i (cstr "/d/x") stat_zero).1, popcounts i))
      = some (-ENOENT, 4, 4) ∧
    (img_reused_inode.bind fun i => a1fs_mkdir i (cstr "/d/x") 0o755 clock0).map
        (fun r => (r.1, (a1fs_rmdir r.2 (cstr "/d/x") clock0).map
           fun q => (q.1, popcounts q.2))) = some (0, some (0, 4, 2)) := by
  decide

/-- C6 (counterexample): on a fresh image `blocks_usd` equals the popcount of
the block bitmap (both 0); after `mkdir("/a")`, which returns 0, the popcount
is 2 and `blocks_usd` is still 0. -/
theorem C6_blocks_usd_not_maintained :
    (fresh.sp.blocks_usd, popcount fresh.data_bitmap fresh.sp.datablocks_count) = (0, 0) ∧
    (a1fs_mkdir fresh (cstr "/a") 0o755 clock0).map
        (fun r => (r.1, r.2.sp.blocks_usd, popcount r.2.data_bitmap r.2.sp.datablocks_count))
      = some (0, 0, 2) := by
  decide

/-- C6 (amended): no operation writes `blocks_usd`. After every sequence of
`mkdir`, `create`, `rmdir`, `unlink`, `truncate` and `write` calls, whatever
they return, `blocks_usd` has the value it had before the first call; it
follows the popcount of the block bitmap only as long as the calls allocate
and free no block on balance. -/
theorem C6_blocks_usd_never_written (now : timespec) (ops : List Op) (img : Image) :
    (run_ops now ops img).map (fun i => i.sp.blocks_usd)
      = (run_ops now ops img).map (fun _ => img.sp.blocks_usd) := by
  cases h : run_ops now ops img with
  | none => rfl
  | some img1 => exact congrArg some (run_ops_blocks now ops img img1 h)

/-- C7 (fails on the code): on a fresh image with 32 inodes and 2 data
blocks, 16 `create` calls fill the only data block of the root and leave
`inodes_usd` equal to the popcount of the inode bitmap (17). The 17th `create`
sets an inode bit, finds no slot, finds no free block for a new extent and
returns `-ENOSPC`: the popcount is 18 and `inodes_usd` is 17. -/
theorem C7_enospc_leaves_inode_bit_set :
    ((create_files (mkfs 32 2) 65 16).map fun i =>
        (i.sp.inodes_usd, popcount i.inode_bitmap i.sp.s_inodes_count)) = some (17, 17) ∧
    ((create_files (mkfs 32 2) 65 16).bind fun i =>
        a1fs_create i (cstr "/z") reg_mode clock0).map
        (fun r => (r.1, r.2.sp.inodes_usd, popcount r.2.inode_bitmap r.2.sp.s_inodes_count))
      = some (-ENOSPC, 17, 18) := by
  decide!

/-- C8 (fails on the code): on a fresh image the root has 2 links and no
entry. After `create("/f")` it still has 2 links; after `unlink("/f")`, which
returns 0, it has no entry again (size 0) and 1 link instead of 2. -/
theorem C8_unlink_decrements_parent_links :
    (fresh.inodes 0).links = 2 ∧
    (img_f.map fun i => (i.inodes 0).links) = some 2 ∧
    (img_f.bind fun i => a1fs_unlink i (cstr "/f") clock0).map
        (fun r => (r.1, (r.2.inodes 0).size, (r.2.inodes 0).links)) = some (0, 0, 1) := by
  decide

/-- C9 (counterexample): `a1fs_truncate("/f", 0)` on the file `"/f"` returns 0
and `a1fs_getattr("/f")` then returns `-ENOENT` instead of 0 with size 0: a
truncation to size 0 removes the file. -/
theorem C9_truncate_zero_removes_file :
    (img_f.bind fun i => a1fs_truncate i (cstr "/f") 0 clock0).map
        (fun r => (r.1, (a1fs_getattr r.2 (cstr "/f") stat_zero).1)) = some (0, -ENOENT) := by
  decide

/-- C9 (amended): let `p` be an existing file with inode `t` (the walk of
`a1fs_getattr` and `get_inode` both resolve `p` to `t`), let `n > 0` need a
number of blocks, as `a1fs_truncate` holds it in its `int` locals, other than
the one the file has, and let `a1fs_truncate(p, n)` return 0. Then inode `t`
has size `n`. After a shrink `a1fs_getattr(p)` returns 0 and reports size `n`,
whatever `*st` held. `a1fs_truncate(p, 0)` is `a1fs_unlink(p)`: it removes the
file. Nothing is stated for an unchanged number of blocks, nor about
`a1fs_getattr` after a grow. -/
theorem C9_truncate_sets_size (img : Image) (path : List Nat) (n t : Nat) (now : timespec)
    (hlen : path.length < A1FS_PATH_MAX) (hhead : path.head? = some 47)
    (hw : getattr_walk img (path_tokens path) 0 = .ok t)
    (ht : get_inode_result img path = some t) (hn : 0 < n)
    (hb : int_blocks_of (img.inodes t).size ≠ int_blocks_of n)
    (h0 : (a1fs_truncate img path n now).map (·.1) = some 0) :
    (a1fs_truncate img path n now).map (fun r => (r.2.inodes t).size) = some n ∧
    (int_blocks_of n < int_blocks_of (img.inodes t).size →
      ∀ st, (a1fs_truncate img path n now).map
          (fun r => ((a1fs_getattr r.2 path st).1, (a1fs_getattr r.2 path st).2.st_size))
        = some (0, n)) ∧
    a1fs_truncate img path 0 now = a1fs_unlink img path now := by
  have hc := a1fs_truncate_cases now ht hn hb
  refine ⟨?_, ?_, ?_⟩
  · cases hr : a1fs_truncate img path n now with
    | none => rw [hr] at h0; cases h0
    | some r =>
      have hr0 : r.1 = 0 := by
        rw [hr] at h0
        exact Option.some.inj h0
      rw [hc] at hr
      split at hr
      · exact congrArg some (truncate_grow_size hr hr0)
      · cases hr
        exact congrArg some (truncate_shrink_frame img t n).2.2.1
  · intro hlt st
    rw [hc, if_neg (not_lt.mpr (le_of_lt hlt))]
    have hf := truncate_shrink_frame img t n
    have hwalk : getattr_walk (truncate_shrink img t n).2 (path_tokens path) 0 = .ok t :=
      (getattr_walk_congr _ _ hf.1 hf.2.1 _ _).trans hw
    show some (_, _) = some (0, n)
    rw [a1fs_getattr, if_neg (not_le.mpr hlen), if_neg (by simp [hhead])]
    split
    · rename_i hroot
      rw [hroot] at hw
      have h0t : t = 0 := by
        simp [path_tokens, strtok_all, getattr_walk] at hw
        exact hw.symm
      subst h0t
      exact congrArg some (Prod.ext rfl hf.2.2.1)
    · rw [hwalk]
      exact congrArg some (Prod.ext rfl hf.2.2.1)
  · rw [a1fs_truncate, ht]
    simp

/-- C9 (witness): the file `"/f"` of size 5, inode 1, grown to 5000 bytes,
and the file `"/f"` of two blocks cut to 100 bytes. -/
theorem C9_truncate_sets_size_witness :
    (a1fs_truncate img_hello (cstr "/f") 5000 clock0).map (fun r => (r.2.inodes 1).size)
      = some 5000 ∧
    (a1fs_truncate (img_f_two_blocks.getD fresh) (cstr "/f") 100 clock0).map
        (fun r => ((a1fs_getattr r.2 (cstr "/f") stat_zero).1,
          (a1fs_getattr r.2 (cstr "/f") stat_zero).2.st_size)) = some (0, 100) :=
  ⟨(C9_truncate_sets_size img_hello (cstr "/f") 5000 1 clock0 (by decide) (by decide)
      rfl (by decide) (by decide) (by decide) (by decide)).1,
   (C9_truncate_sets_size (img_f_two_blocks.getD fresh) (cstr "/f") 100 1 clock0 (by decide)
      (by decide) rfl (by decide) (by decide) (by decide) (by decide)).2.1
      (by decide) stat_zero⟩

/-- C10 (fails on the code): on the file `"/f"` holding `"hello world"`
(size 11), `a1fs_truncate("/f", 5)` and then `a1fs_truncate("/f", 8)` both
return 0; the size is still 11, not 8, and the bytes of the file in `[5, 8)`
read as `" wo"`, not as zeros: with an unchanged block count `a1fs_truncate`
returns before touching the inode. -/
theorem C10_truncate_in_block_keeps_size_and_data :
    ((img_f_hello_world.bind fun i => a1fs_truncate i (cstr "/f") 5 clock0).bind
        fun r => (a1fs_truncate r.2 (cstr "/f") 8 clock0).map fun q =>
          (r.1, q.1, (a1fs_getattr q.2 (cstr "/f") stat_zero).2.st_size,
           a1fs_read q.2 (cstr "/f") [0, 0, 0] 5))
      = some (0, 0, 11, some (3, cstr " wo")) := by
  decide

/-- C11 (fails on the code): the file `"/f"` has size 5. The call
`a1fs_write("/f", "abc", 3, 7)`, beyond the end of the file and inside its only
block, returns 3; afterwards `a1fs_getattr("/f")` returns 0 and reports the
size 5, not `max(5, 7 + 3) = 10`: `a1fs_write` grows the file only when it
needs a further block. -/
theorem C11_write_beyond_eof_in_block_keeps_size :
    (img_f_hello.map fun i => (a1fs_getattr i (cstr "/f") stat_zero).2.st_size) = some 5 ∧
    (img_f_hello.bind fun i => a1fs_write i (cstr "/f") (cstr "abc") 7 clock0).map
        (fun r => (r.1, (a1fs_getattr r.2 (cstr "/f") stat_zero).1, (a1fs_getattr r.2 (cstr "/f") stat_zero).2.st_size))
      = some (3, 0, 5) := by
  decide

/-- C12 (fails on the code): in `img_two_extents` the file `"/f"` (inode 1,
size 8192) has the extents `(12288, 1)` and `(24576, 1)`, so its bytes
`[4096, 4104)` are the first 8 bytes of the second extent, all zero.
`a1fs_read("/f", buf, 8, 4096)` returns 8 and fills `buf` with the 8 bytes at
`12288 + 4096`, the extent list of `"/g"`: the source is always the start of
the first extent plus the offset. -/
theorem C12_read_second_extent_reads_other_block :
    (img_two_extents.map fun i =>
        (get_inode_result i (cstr "/f"), (i.inodes 1).size, (i.inodes 1).extent_used))
      = some (some 1, 8192, 2) ∧
    (img_two_extents.map fun i =>
        ((inode_extent i.data (i.inodes 1) 0).start, (inode_extent i.data (i.inodes 1) 0).count,
         (inode_extent i.data (i.inodes 1) 1).start, (inode_extent i.data (i.inodes 1) 1).count))
      = some (12288, 1, 24576, 1) ∧
    (img_two_extents.map fun i => mem_bytes i.data 24576 8) = some [0, 0, 0, 0, 0, 0, 0, 0] ∧
    (img_two_extents.map fun i => a1fs_read i (cstr "/f") [9, 9, 9, 9, 9, 9, 9, 9] 4096)
      = some (some (8, [0, 80, 0, 0, 1, 0, 0, 0])) := by
  decide

/-- C13 (fails on the code): after `mkdir("/ ")` the path `"/ "` is a
directory of size 0, yet `a1fs_rmdir("/ ")` returns `-ENOTEMPTY`: `get_inode`
skips the entry named `" "` and hands back the root, whose size is not 0. -/
theorem C13_rmdir_empty_directory_notempty :
    (img_space_dir.map fun i =>
        ((a1fs_getattr i (cstr "/ ") stat_zero).1, (a1fs_getattr i (cstr "/ ") stat_zero).2.st_mode,
         (a1fs_getattr i (cstr "/ ") stat_zero).2.st_size, (a1fs_rmdir i (cstr "/ ") clock0).map (·.1)))
      = some (0, S_IFDIR ||| 0o755, 0, some (-ENOTEMPTY)) := by
  decide

/-- C14 (fails on the code): after `create("/ ")` the path `"/ "` is a regular
file. `a1fs_unlink("/ ")` returns 0, and afterwards `a1fs_getattr("/ ")` still
returns 0, the entry in slot 0 of the root still carries the inode index 1,
and the inode bit that was cleared is bit 0, the root's, while bit 1 is still
set: `get_inode` resolved `"/ "` to the root. -/
theorem C14_unlink_space_named_file_still_resolves :
    (img_space_file.map fun i =>
        ((a1fs_getattr i (cstr "/ ") stat_zero).1, (a1fs_getattr i (cstr "/ ") stat_zero).2.st_mode))
      = some (0, reg_mode) ∧
    (img_space_file.bind fun i => a1fs_unlink i (cstr "/ ") clock0).map
        (fun r => (r.1, (a1fs_getattr r.2 (cstr "/ ") stat_zero).1,
           dentry_ino r.2.data (dentry_addr 4096 0),
           bit_set r.2.inode_bitmap 0, bit_set r.2.inode_bitmap 1))
      = some (0, 0, 1, false, true) := by
  decide

/-- C15 (fails on the code): on a fresh image the root has no extent, hence
no entry. `a1fs_getattr("/a")` returns `-ENOENT`, but `a1fs_getattr("/a/b")`,
whose first component is missing, returns `-ENOTDIR`. -/
theorem C15_getattr_missing_prefix_component_notdir :
    (fresh.inodes 0).extent_used = 0 ∧
    (a1fs_getattr fresh (cstr "/a") stat_zero).1 = -ENOENT ∧
    (a1fs_getattr fresh (cstr "/a/b") stat_zero).1 = -ENOTDIR := by
  decide

/-- C16 (fails on the code): after `create("/ ")` the component `" "` of the
path `"/ /x"` is a regular file. `a1fs_getattr("/ /x")` returns `-ENOTDIR`,
but `get_inode("/ /x")` returns 0 and stores the root's index 0: it skips the
entry named `" "`. -/
theorem C16_get_inode_through_space_named_file :
    (img_space_file.map fun i =>
        ((a1fs_getattr i (cstr "/ ") stat_zero).1, (a1fs_getattr i (cstr "/ ") stat_zero).2.st_mode,
         (a1fs_getattr i (cstr "/ /x") stat_zero).1, get_inode i (cstr "/ /x")))
      = some (0, reg_mode, -ENOTDIR, some (0, some 0)) := by
  decide

/-- C17 (fails on the code): with 8 blocks of which only block 7 is free,
`find_free_extents` returns the single pair `(0, 1)` instead of `(7, 1)`: the
branch for the last bit stores `start`, which is still 0 when no run is open. -/
theorem C17_isolated_last_free_bit :
    img_last_free.sp.datablocks_count = 8 ∧
    (List.range 8).map (bit_set img_last_free.data_bitmap)
      = [true, true, true, true, true, true, true, false] ∧
    (find_free_extents img_last_free).map (fun e => (e.start, e.count)) = [(0, 1)] := by
  decide

/-- C18 (holds): `set_inode_bitmap` is `set_single_bitmap` on the inode
bitmap. For either bitmap of `n` bits: if `i < n` is the smallest index whose
bit is clear, the call succeeds with index `i` and the bitmap `set_bit bm i`,
and such an `i` exists as soon as some bit below `n` is clear; if all `n` bits
are set the call fails (`none`, the value `-1`, the image untouched). In
`set_bit bm i` byte `i / 8` is or-ed with `1 << (7 - i % 8)` and no other byte
changes, so bit `i` is set and every other bit is as before. -/
theorem C18_set_single_bitmap_first_clear_bit (img : Image) :
    set_inode_bitmap img = set_single_bitmap img true ∧
    (∀ i, i < img.sp.s_inodes_count → bit_set img.inode_bitmap i = false →
      (∀ j, j < i → bit_set img.inode_bitmap j = true) →
      set_single_bitmap img true
        = some (i, { img with inode_bitmap := set_bit img.inode_bitmap i })) ∧
    (∀ i, i < img.sp.datablocks_count → bit_set img.data_bitmap i = false →
      (∀ j, j < i → bit_set img.data_bitmap j = true) →
      set_single_bitmap img false
        = some (i, { img with data_bitmap := set_bit img.data_bitmap i })) ∧
    ((∃ i, i < img.sp.s_inodes_count ∧ bit_set img.inode_bitmap i = false) →
      ∃ i, i < img.sp.s_inodes_count ∧ bit_set img.inode_bitmap i = false ∧
        (∀ j, j < i → bit_set img.inode_bitmap j = true) ∧
        set_single_bitmap img true
          = some (i, { img with inode_bitmap := set_bit img.inode_bitmap i })) ∧
    ((∃ i, i < img.sp.datablocks_count ∧ bit_set img.data_bitmap i = false) →
      ∃ i, i < img.sp.datablocks_count ∧ bit_set img.data_bitmap i = false ∧
        (∀ j, j < i → bit_set img.data_bitmap j = true) ∧
        set_single_bitmap img false
          = some (i, { img with data_bitmap := set_bit img.data_bitmap i })) ∧
    ((∀ i, i < img.sp.s_inodes_count → bit_set img.inode_bitmap i = true) →
      set_single_bitmap img true = none) ∧
    ((∀ i, i < img.sp.datablocks_count → bit_set img.data_bitmap i = true) →
      set_single_bitmap img false = none) ∧
    (∀ (bm : Bitmap) (i j : Nat), bit_set (set_bit bm i) j = (decide (j = i) || bit_set bm j)) ∧
    (∀ (bm : Bitmap) (i k : Nat),
      set_bit bm i k = if k = i / 8 then bm k ||| (1 <<< (7 - i % 8)) else bm k) := by
  have hino : ∀ i, i < img.sp.s_inodes_count → bit_set img.inode_bitmap i = false →
      (∀ j, j < i → bit_set img.inode_bitmap j = true) →
      set_single_bitmap img true
        = some (i, { img with inode_bitmap := set_bit img.inode_bitmap i }) := by
    intro i hi hc hs
    have h := set_first_free_some img.inode_bitmap img.sp.s_inodes_count 0 i (Nat.zero_le _)
      (by omega) hc fun j _ hj => hs j hj
    simp only [set_single_bitmap, if_true, h]
  have hblk : ∀ i, i < img.sp.datablocks_count → bit_set img.data_bitmap i = false →
      (∀ j, j < i → bit_set img.data_bitmap j = true) →
      set_single_bitmap img false
        = some (i, { img with data_bitmap := set_bit img.data_bitmap i }) := by
    intro i hi hc hs
    have h := set_first_free_some img.data_bitmap img.sp.datablocks_count 0 i (Nat.zero_le _)
      (by omega) hc fun j _ hj => hs j hj
    simp [set_single_bitmap, h]
  refine ⟨rfl, hino, hblk, ?_, ?_, ?_, ?_, bit_set_set_bit, fun _ _ _ => rfl⟩
  · intro h
    obtain ⟨i, hi, hc, hs⟩ := exists_first_clear _ _ h
    exact ⟨i, hi, hc, hs, hino i hi hc hs⟩
  · intro h
    obtain ⟨i, hi, hc, hs⟩ := exists_first_clear _ _ h
    exact ⟨i, hi, hc, hs, hblk i hi hc hs⟩
  · intro h
    have h1 := set_first_free_none img.inode_bitmap img.sp.s_inodes_count 0
      fun j _ hj => h j (by omega)
    simp [set_single_bitmap, h1]
  · intro h
    have h1 := set_first_free_none img.data_bitmap img.sp.datablocks_count 0
      fun j _ hj => h j (by omega)
    simp [set_single_bitmap, h1]

/-- C18 (witness): on a fresh image the first free inode is 1 and the first
free block is 0; with all 8 inode bits set the call fails. -/
theorem C18_set_single_bitmap_first_clear_bit_witness :
    set_single_bitmap fresh true
        = some (1, { fresh with inode_bitmap := set_bit fresh.inode_bitmap 1 }) ∧
    set_single_bitmap fresh false
        = some (0, { fresh with data_bitmap := set_bit fresh.data_bitmap 0 }) ∧
    set_single_bitmap img_inodes_full true = none :=
  ⟨(C18_set_single_bitmap_first_clear_bit fresh).2.1 1 (by decide) (by decide) (by decide),
   (C18_set_single_bitmap_first_clear_bit fresh).2.2.1 0 (by decide) (by decide) (by decide),
   (C18_set_single_bitmap_first_clear_bit img_inodes_full).2.2.2.2.2.1 (by decide)⟩

/-- C19 (fails on the code): in `img_f_two_blocks` the file `"/f"` has size
8192 and the single extent of blocks 3 and 4, both allocated.
`a1fs_truncate("/f", 100)` returns 0 and sets the size to 100; the extent
still has the count 2, not `ceil(100 / 4096) = 1`, and its block 4 is free in
the block bitmap. -/
theorem C19_shrink_keeps_extent_count :
    (img_f_two_blocks.map fun i =>
        ((a1fs_getattr i (cstr "/f") stat_zero).2.st_size, (i.inodes 1).extent_used,
         (inode_extent i.data (i.inodes 1) 0).start / A1FS_BLOCK_SIZE,
         (inode_extent i.data (i.inodes 1) 0).count))
      = some (8192, 1, 3, 2) ∧
    (img_f_two_blocks.map fun i => (bit_set i.data_bitmap 3, bit_set i.data_bitmap 4))
      = some (true, true) ∧
    (img_f_two_blocks.bind fun i => a1fs_truncate i (cstr "/f") 100 clock0).map
        (fun r => (r.1, (a1fs_getattr r.2 (cstr "/f") stat_zero).2.st_size, (r.2.inodes 1).extent_used,
           (inode_extent r.2.data (r.2.inodes 1) 0).start / A1FS_BLOCK_SIZE,
           (inode_extent r.2.data (r.2.inodes 1) 0).count))
      = some (0, 100, 1, 3, 2) ∧
    (img_f_two_blocks.bind fun i => a1fs_truncate i (cstr "/f") 100 clock0).map
        (fun r => (bit_set r.2.data_bitmap 3, bit_set r.2.data_bitmap 4))
      = some (true, false) := by
  decide

/-- C21 (fails on the code): the file `"/f"` of `img_f` has no extent, and 6
of the 8 blocks are free. `a1fs_truncate("/f", 28672)` needs 7 blocks and
returns `-ENOSPC`, but bit 2 of the block bitmap, taken for the extent-list
block before the free runs were counted, stays set: 3 bits are set instead
of 2. -/
theorem C21_enospc_keeps_extent_list_bit :
    (img_f.map fun i =>
        ((i.inodes 1).extent_used, popcount i.data_bitmap i.sp.datablocks_count,
         bit_set i.data_bitmap 2)) = some (0, 2, false) ∧
    (img_f.bind fun i => a1fs_truncate i (cstr "/f") 28672 clock0).map
        (fun r => (r.1, popcount r.2.data_bitmap r.2.sp.datablocks_count,
           bit_set r.2.data_bitmap 2)) = some (-ENOSPC, 3, true) := by
  decide

/-- C22 (fails on the code): on the image `img_one_inode`, whose only inode
is in use, `a1fs_mkdir("/a")` and `a1fs_create("/a")` return `-ENOSPC` after
they have given the root an extent-list block and a directory block (block
bits 0 and 1, `extent_used` 1); `a1fs_mkdir` has also raised the root's link
count from 2 to 3. On a fresh image of 8 inodes, after 7 `create` calls,
`a1fs_mkdir("/d")` returns `-ENOSPC` and leaves the root with 3 links. -/
theorem C22_enospc_keeps_partial_changes :
    (bit_set img_one_inode.data_bitmap 0, bit_set img_one_inode.data_bitmap 1,
      (img_one_inode.inodes 0).links, (img_one_inode.inodes 0).extent_used)
      = (false, false, 2, 0) ∧
    (a1fs_mkdir img_one_inode (cstr "/a") 0o755 clock0).map
        (fun r => (r.1, bit_set r.2.data_bitmap 0, bit_set r.2.data_bitmap 1,
           (r.2.inodes 0).links, (r.2.inodes 0).extent_used))
      = some (-ENOSPC, true, true, 3, 1) ∧
    (a1fs_create img_one_inode (cstr "/a") reg_mode clock0).map
        (fun r => (r.1, bit_set r.2.data_bitmap 0, bit_set r.2.data_bitmap 1,
           (r.2.inodes 0).links, (r.2.inodes 0).extent_used))
      = some (-ENOSPC, true, true, 2, 1) ∧
    ((create_files fresh 65 7).map fun i =>
        (popcount i.inode_bitmap i.sp.s_inodes_count, (i.inodes 0).links)) = some (8, 2) ∧
    ((create_files fresh 65 7).bind fun i => a1fs_mkdir i (cstr "/d") 0o755 clock0).map
        (fun r => (r.1, (r.2.inodes 0).links)) = some (-ENOSPC, 3) := by
  decide

/-- C23 (fails on the code): in `img_shrunk_full` all 8 blocks are allocated
and the file `"/f"` (inode 1) has size 100. A write of 2 bytes at offset 4096
needs a second block; `a1fs_truncate("/f", 4098)` returns `-ENOSPC`. Yet
`a1fs_write("/f", "XY", 2, 4096)` returns 2: the size is still 100 and the
bytes went to offset 16384 of the data region, the extent-list block of
`"/g"` (inode 2), whose first extent they overwrite. -/
theorem C23_write_ignores_enospc :
    (img_shrunk_full.map fun i =>
        (get_inode_result i (cstr "/f"), (i.inodes 1).size,
         popcount i.data_bitmap i.sp.datablocks_count, i.sp.datablocks_count))
      = some (some 1, 100, 8, 8) ∧
    (img_shrunk_full.bind fun i => a1fs_truncate i (cstr "/f") 4098 clock0).map (·.1)
      = some (-ENOSPC) ∧
    (img_shrunk_full.map fun i => mem_bytes i.data 16384 2) = some [0, 80] ∧
    (img_shrunk_full.bind fun i => a1fs_write i (cstr "/f") (cstr "XY") 4096 clock0).map
        (fun r => (r.1, (r.2.inodes 1).size, (r.2.inodes 2).extend_pt,
           mem_bytes r.2.data 16384 2)) = some (2, 100, 16384, [88, 89]) := by
  decide

/-- C24 (counterexample): in `img_list_full` the extent list of `"/f"` holds
512 extents, the capacity of its block (`4096 / 8`), and 5 blocks are free.
`a1fs_truncate("/f", 513 * 4096)` returns 0 and leaves `extent_used = 513`;
extent 512 is stored at offset `8192 + 4096 = 12288`, the first 8 bytes of the
file's first data block. -/
theorem C24_extent_list_grows_past_block :
    (get_inode_result img_list_full (cstr "/f"), (img_list_full.inodes 1).extent_used,
      (img_list_full.inodes 1).extend_pt, A1FS_BLOCK_SIZE / sizeof_extent,
      (inode_extent img_list_full.data (img_list_full.inodes 1) 0).start)
      = (some 1, 512, 8192, 512, 12288) ∧
    (a1fs_truncate img_list_full (cstr "/f") (513 * 4096) clock0).map
        (fun r => (r.1, (r.2.inodes 1).extent_used,
           (inode_extent r.2.data (r.2.inodes 1) 512).start,
           (inode_extent r.2.data (r.2.inodes 1) 512).count))
      = some (0, 513, 515 * 4096, 1) ∧
    (mem_bytes img_list_full.data 12288 8,
     (a1fs_truncate img_list_full (cstr "/f") (513 * 4096) clock0).map
        (fun r => mem_bytes r.2.data 12288 8))
      = ([0, 0, 0, 0, 0, 0, 0, 0], some [0, 48, 32, 0, 1, 0, 0, 0]) := by
  decide!

/-- C24 (amended): no operation compares `extent_used` with the capacity of
the extent-list block. `allocate_extent` raises `extent_used` by one whatever
its value and keeps `extend_pt`. A growing `a1fs_truncate` (a size other than
0 whose number of blocks, as the `int` local `size_blocks` holds it, is larger
than `target_blocks`) returns 0 or `-ENOSPC`; when it returns 0 `extent_used`
is larger than before, and it returns `-ENOSPC` only when the block bitmap of
the image it leaves has no clear bit or its free runs hold fewer blocks than
`size_blocks - target_blocks`.
`a1fs_mkdir` and `a1fs_create` return `-ENOSPC` only when, in the image they
leave, the block bitmap or the inode bitmap has no clear bit. -/
theorem C24_extent_count_not_bounded (img : Image) (path : List Nat) (now : timespec) :
    (∀ t size r, get_inode_result img path = some t → 0 < size →
      int_blocks_of (img.inodes t).size < int_blocks_of size →
      a1fs_truncate img path size now = some r →
      (r.1 = 0 ∨ r.1 = -ENOSPC) ∧
      (r.1 = 0 → (img.inodes t).extent_used < (r.2.inodes t).extent_used) ∧
      (r.1 = -ENOSPC →
        (∀ i, i < r.2.sp.datablocks_count → bit_set r.2.data_bitmap i = true) ∨
        (sum_extents (find_free_extents r.2) : Int) <
          int_blocks_of size - int_blocks_of (img.inodes t).size)) ∧
    (∀ mode r, a1fs_mkdir img path mode now = some r → r.1 = -ENOSPC →
      (∀ i, i < r.2.sp.datablocks_count → bit_set r.2.data_bitmap i = true) ∨
      (∀ i, i < r.2.sp.s_inodes_count → bit_set r.2.inode_bitmap i = true)) ∧
    (∀ mode r, a1fs_create img path mode now = some r → r.1 = -ENOSPC →
      (∀ i, i < r.2.sp.datablocks_count → bit_set r.2.data_bitmap i = true) ∨
      (∀ i, i < r.2.sp.s_inodes_count → bit_set r.2.inode_bitmap i = true)) ∧
    (∀ t b e,
      ((allocate_extent img t b e).1.inodes t).extent_used = (img.inodes t).extent_used + 1 ∧
      ((allocate_extent img t b e).1.inodes t).extend_pt = (img.inodes t).extend_pt) := by
  refine ⟨?_, fun _ _ h he => a1fs_mkdir_enospc_full h he,
    fun _ _ h he => a1fs_create_enospc_full h he, fun t b e => allocate_extent_inode img t b e⟩
  intro t size r ht hn hlt h
  rw [a1fs_truncate_cases now ht hn (ne_of_lt hlt), if_pos hlt] at h
  exact truncate_grow_result h hlt

/-- C24 (witness): the growing `a1fs_truncate` on `img_list_full`, whose
extent list is full. -/
theorem C24_extent_count_not_bounded_witness :
    ∃ r, a1fs_truncate img_list_full (cstr "/f") 2101248 clock0 = some r ∧ r.1 = 0 ∧
      (img_list_full.inodes 1).extent_used < (r.2.inodes 1).extent_used := by
  have h0 : (a1fs_truncate img_list_full (cstr "/f") 2101248 clock0).map (·.1) = some 0 := by
    decide!
  cases h : a1fs_truncate img_list_full (cstr "/f") 2101248 clock0 with
  | none => rw [h] at h0; cases h0
  | some r =>
    have hr : r.1 = 0 := by
      rw [h] at h0
      exact Option.some.inj h0
    exact ⟨r, rfl, hr,
      ((C24_extent_count_not_bounded img_list_full (cstr "/f") clock0).1 1 2101248 r (by decide)
        (by decide) (by decide) h).2.1 hr⟩

/-- C25 (fails on the code): in `img_space_file` the path `"/ "` is a regular
file of size 0 (`a1fs_getattr("/ ")` returns 0 with the mode of a regular file
and size 0), so offset 0 is not below its size. `a1fs_read("/ ", buf, 3, 0)`
returns 3, not 0, and overwrites the buffer with the first bytes of the root's
directory block: `get_inode` skips the entry `" "` and hands back the root,
and the offset is compared with the size of the root, 256. -/
theorem C25_read_space_named_file_at_eof :
    (img_space_file.map fun i =>
        ((a1fs_getattr i (cstr "/ ") stat_zero).1, (a1fs_getattr i (cstr "/ ") stat_zero).2.st_mode,
         (a1fs_getattr i (cstr "/ ") stat_zero).2.st_size, (i.inodes 0).size))
      = some (0, reg_mode, 0, 256) ∧
    (img_space_file.bind fun i => a1fs_read i (cstr "/ ") [9, 9, 9] 0)
      = some (3, [1, 0, 0]) := by
  decide

/-- C26 (fails on the code): the file `"/f"` of `img_hello` has size 5.
`a1fs_read("/f", buf, 10, 0)` copies the 5 bytes of the file and returns 10,
the size asked for, not 5. -/
theorem C26_read_across_eof_returns_size :
    (img_hello.inodes 1).size = 5 ∧
    a1fs_read img_hello (cstr "/f") [9, 9, 9, 9, 9, 9, 9, 9, 9, 9] 0
      = some (10, [104, 101, 108, 108, 111, 9, 9, 9, 9, 9]) := by
  decide

/-- C27 (holds): for an image whose block count `ceil(size / 4096)` fits an
`int` and whose counters `blocks_usd` and `inodes_usd` do not exceed the block
count and `s_inodes_count` (below `2^32`), `a1fs_statfs` returns 0 with
`f_bsize = f_frsize = 4096`, `f_blocks = ceil(size / 4096)`, `f_bfree =
f_bavail = f_blocks - blocks_usd`, `f_files = s_inodes_count`, `f_ffree =
f_favail = s_inodes_count - inodes_usd` and `f_namemax = A1FS_NAME_MAX`; for
an image of 1 MiB `f_blocks` is 256. -/
theorem C27_statfs_fields (img : Image)
    (hs : blocks_of img.size < 2147483648)
    (hb : img.sp.blocks_usd ≤ blocks_of img.size)
    (hi : img.sp.inodes_usd ≤ img.sp.s_inodes_count)
    (hn : img.sp.s_inodes_count < 4294967296) :
    a1fs_statfs img =
      (0, { f_bsize := 4096, f_frsize := 4096,
            f_blocks := blocks_of img.size,
            f_bfree := blocks_of img.size - img.sp.blocks_usd,
            f_bavail := blocks_of img.size - img.sp.blocks_usd,
            f_files := img.sp.s_inodes_count,
            f_ffree := img.sp.s_inodes_count - img.sp.inodes_usd,
            f_favail := img.sp.s_inodes_count - img.sp.inodes_usd,
            f_namemax := A1FS_NAME_MAX }) ∧
    (blocks_of img.size = (img.size + 4095) / 4096) ∧
    (img.size = 1048576 → (a1fs_statfs img).2.f_blocks = 256) := by
  have hbo : (if img.size % A1FS_BLOCK_SIZE ≠ 0 then ((img.size / A1FS_BLOCK_SIZE + 1 : Nat) : Int)
      else ((img.size / A1FS_BLOCK_SIZE : Nat) : Int)) = ((blocks_of img.size : Nat) : Int) := by
    unfold blocks_of
    by_cases h : img.size % A1FS_BLOCK_SIZE = 0
    · rw [if_neg (not_not.mpr h), if_pos h]
    · rw [if_pos h, if_neg h]
  have hst : a1fs_statfs img =
      (0, { f_bsize := 4096, f_frsize := 4096,
            f_blocks := blocks_of img.size,
            f_bfree := blocks_of img.size - img.sp.blocks_usd,
            f_bavail := blocks_of img.size - img.sp.blocks_usd,
            f_files := img.sp.s_inodes_count,
            f_ffree := img.sp.s_inodes_count - img.sp.inodes_usd,
            f_favail := img.sp.s_inodes_count - img.sp.inodes_usd,
            f_namemax := A1FS_NAME_MAX }) := by
    unfold a1fs_statfs
    dsimp only
    rw [hbo, int_of_small _ hs, to_u64_nat _ (by omega), to_uint_sub _ _ hb (by omega),
      to_uint_sub _ _ hi hn]
    rfl
  have hceil : blocks_of img.size = (img.size + 4095) / 4096 := by
    unfold blocks_of A1FS_BLOCK_SIZE
    split <;> omega
  refine ⟨hst, hceil, ?_⟩
  intro h1
  rw [hst]
  show blocks_of img.size = 256
  rw [hceil, h1]

/-- C27 (witness): a fresh image of 1 MiB with 8 inodes. -/
theorem C27_statfs_fields_witness :
    (mkfs 8 252).size = 1048576 ∧
    (a1fs_statfs (mkfs 8 252)).2.f_blocks = 256 ∧
    (a1fs_statfs (mkfs 8 252)).2.f_ffree = 7 :=
  ⟨by decide,
   (C27_statfs_fields (mkfs 8 252) (by decide) (by decide) (by decide) (by decide)).2.2
     (by decide),
   (congrArg (fun r => r.2.f_ffree)
     (C27_statfs_fields (mkfs 8 252) (by decide) (by decide) (by decide) (by decide)).1).trans
     (by decide)⟩

/-- C28 (counterexample): the path `path_of_limit` has exactly
`A1FS_PATH_MAX` bytes, so its length does not exceed the limit, and
`a1fs_getattr` returns `-ENAMETOOLONG` for it. -/
theorem C28_path_of_limit_length_rejected :
    path_of_limit.length = A1FS_PATH_MAX ∧
    (a1fs_getattr fresh path_of_limit stat_zero).1 = -ENAMETOOLONG := by
  have h : path_of_limit.length = A1FS_PATH_MAX := by
    show (List.replicate 4095 97).length + 1 = 4096
    rw [List.length_replicate]
  refine ⟨h, ?_⟩
  rw [a1fs_getattr, if_pos (ge_of_eq h)]

/-- C28 (amended): `a1fs_getattr` returns `-ENAMETOOLONG` exactly when the
path has at least `A1FS_PATH_MAX` bytes; for such a path, whatever the image
holds, the call returns `-ENAMETOOLONG` and leaves `*st` as the caller passed
it in. -/
theorem C28_nametoolong_iff_length_ge (img : Image) (path : List Nat) (st : stat) :
    ((a1fs_getattr img path st).1 = -ENAMETOOLONG ↔ path.length ≥ A1FS_PATH_MAX) ∧
    (path.length ≥ A1FS_PATH_MAX →
      ∀ img2 : Image, a1fs_getattr img2 path st = (-ENAMETOOLONG, st)) := by
  have h2 : path.length ≥ A1FS_PATH_MAX →
      ∀ img2 : Image, a1fs_getattr img2 path st = (-ENAMETOOLONG, st) := by
    intro h img2
    rw [a1fs_getattr, if_pos h]
  refine ⟨⟨?_, fun h => by rw [h2 h img]⟩, h2⟩
  intro h
  by_contra hlen
  rw [a1fs_getattr, if_neg hlen] at h
  split at h
  · exact absurd h (by decide)
  · split at h
    · exact absurd h (show ¬ ((0 : Int) = -ENAMETOOLONG) by decide)
    · split at h
      · rename_i e he
        rcases getattr_walk_error _ _ _ _ he with h1 | h1
        · rw [h1] at h
          exact absurd h (by decide)
        · rw [h1] at h
          exact absurd h (by decide)
      · exact absurd h (show ¬ ((0 : Int) = -ENAMETOOLONG) by decide)

/-- C28 (witness): the path of `A1FS_PATH_MAX` bytes is rejected on the image
`img_hello` with the `stat` record of the caller left as it was, and the path
`"/f"` is not rejected as too long. -/
theorem C28_nametoolong_iff_length_ge_witness :
    a1fs_getattr img_hello path_of_limit ⟨1, 2, 3, 4, ⟨5, 6⟩⟩
      = (-ENAMETOOLONG, ⟨1, 2, 3, 4, ⟨5, 6⟩⟩) ∧
    (a1fs_getattr fresh (cstr "/f") stat_zero).1 ≠ -ENAMETOOLONG :=
  ⟨(C28_nametoolong_iff_length_ge fresh path_of_limit ⟨1, 2, 3, 4, ⟨5, 6⟩⟩).2
    (ge_of_eq (by show (List.replicate 4095 97).length + 1 = 4096; rw [List.length_replicate]))
    img_hello,
   fun h => absurd ((C28_nametoolong_iff_length_ge fresh (cstr "/f") stat_zero).1.mp h)
    (by decide)⟩

/-- C29 (fails on the code): in `img_last_block_free` the blocks 0 to 3 are
allocated (block 0 is the extent list of the root) and block 4, the last one,
is free. `a1fs_truncate("/f", 8192)` returns 0 with the block 0 as the second
extent of the file: block 4 is still free, block 0 has been zero-filled, the
root's extent reads `(0, 0)` and `a1fs_getattr("/f")` returns `-ENOENT`. -/
theorem C29_grow_hands_out_allocated_block :
    (img_last_block_free.map fun i =>
        ((List.range 5).map (bit_set i.data_bitmap), (a1fs_getattr i (cstr "/f") stat_zero).1,
         (inode_extent i.data (i.inodes 0) 0).start, (inode_extent i.data (i.inodes 0) 0).count))
      = some ([true, true, true, true, false], 0, 4096, 1) ∧
    (img_last_block_free.bind fun i => a1fs_truncate i (cstr "/f") 8192 clock0).map
        (fun r => (r.1, (r.2.inodes 1).extent_used,
           (inode_extent r.2.data (r.2.inodes 1) 1).start,
           (inode_extent r.2.data (r.2.inodes 1) 1).count))
      = some (0, 2, 0, 1) ∧
    (img_last_block_free.bind fun i => a1fs_truncate i (cstr "/f") 8192 clock0).map
        (fun r => (bit_set r.2.data_bitmap 4, (inode_extent r.2.data (r.2.inodes 0) 0).start,
           (inode_extent r.2.data (r.2.inodes 0) 0).count, (a1fs_getattr r.2 (cstr "/f") stat_zero).1))
      = some (false, 0, 0, -ENOENT) := by
  decide

/-- C30 (fails on the code): the file `"/f"` of `img_hello` holds `"hello"`.
After `a1fs_truncate("/f", 5000)`, which returns 0, and also after the
appending `a1fs_write("/f", "Z", 1, 4096)`, which returns 1, the first 5 bytes
read as `"hell"` followed by a zero byte: the zero-fill of the grow starts at
the byte at offset `old_size - 1`. -/
theorem C30_grow_zeroes_last_byte :
    a1fs_read img_hello (cstr "/f") [9, 9, 9, 9, 9] 0 = some (5, cstr "hello") ∧
    (a1fs_truncate img_hello (cstr "/f") 5000 clock0).map
        (fun r => (r.1, (r.2.inodes 1).size, a1fs_read r.2 (cstr "/f") [9, 9, 9, 9, 9] 0))
      = some (0, 5000, some (5, [104, 101, 108, 108, 0])) ∧
    (a1fs_write img_hello (cstr "/f") (cstr "Z") 4096 clock0).map
        (fun r => (r.1, (r.2.inodes 1).size, a1fs_read r.2 (cstr "/f") [9, 9, 9, 9, 9] 0))
      = some (1, 4097, some (5, [104, 101, 108, 108, 0])) := by
  decide

/-- C31 (fails on the code): growing the empty file `"/f"` of `img_f` to
10000 bytes returns 0, appends one extent of 3 blocks and raises the number
of set block bits from 2 to 6. In `img_reused_file` the empty file `"/g"` has
the inode of an unlinked file, with `extent_used` still 1 and the freed
extent-list block; `a1fs_truncate("/g", 10000)` returns 0 and sets the size
to 10000, but sets no block bit (2 before and after), and the two extents of
the file have the counts 0 and 0: the new extent was written into the block
that the zero-fill of the allocation then cleared. -/
theorem C31_grow_on_reused_inode_allocates_nothing :
    (img_f.bind fun i => a1fs_truncate i (cstr "/f") 10000 clock0).map
        (fun r => (r.1, popcount r.2.data_bitmap r.2.sp.datablocks_count,
           (inode_extent r.2.data (r.2.inodes 1) 0).count)) = some (0, 6, 3) ∧
    (img_reused_file.map fun i =>
        (get_inode_result i (cstr "/g"), (a1fs_getattr i (cstr "/g") stat_zero).2.st_size,
         (i.inodes 1).extent_used, popcount i.data_bitmap i.sp.datablocks_count))
      = some (some 1, 0, 1, 2) ∧
    (img_reused_file.bind fun i => a1fs_truncate i (cstr "/g") 10000 clock0).map
        (fun r => (r.1, (a1fs_getattr r.2 (cstr "/g") stat_zero).2.st_size, (r.2.inodes 1).extent_used,
           popcount r.2.data_bitmap r.2.sp.datablocks_count))
      = some (0, 10000, 2, 2) ∧
    (img_reused_file.bind fun i => a1fs_truncate i (cstr "/g") 10000 clock0).map
        (fun r => ((inode_extent r.2.data (r.2.inodes 1) 0).count,
           (inode_extent r.2.data (r.2.inodes 1) 1).start,
           (inode_extent r.2.data (r.2.inodes 1) 1).count))
      = some (0, 0, 0) := by
  decide

/-- C32 (holds): let the extents of the inode have the counts `c_0, ...,
c_{k-1}`, with `4096 * (c_0 + ... + c_{k-1})` below `2^31`, and let `offset`
be smaller than that number of bytes. Then `find_extent` stores an extent
index `i < k` with `4096 * (c_0 + ... + c_{i-1}) <= offset <
4096 * (c_0 + ... + c_i)` and the byte index `offset - 4096 * (c_0 + ... +
c_{i-1})`, which is below `4096 * c_i`; `i` is the only index with these
bounds. -/
theorem C32_find_extent_locates_offset (m : Mem) (inode : a1fs_inode) (offset : Nat)
    (hfit : 4096 * blocks_before m inode inode.extent_used < 2147483648)
    (hoff : offset < 4096 * blocks_before m inode inode.extent_used) :
    ∃ i, i < inode.extent_used ∧
      4096 * blocks_before m inode i ≤ offset ∧
      offset < 4096 * blocks_before m inode (i + 1) ∧
      find_extent m inode offset = some (i, ((offset - 4096 * blocks_before m inode i : Nat) : Int)) ∧
      offset - 4096 * blocks_before m inode i < 4096 * (inode_extent m inode i).count ∧
      (∀ j, 4096 * blocks_before m inode j ≤ offset →
        offset < 4096 * blocks_before m inode (j + 1) → j = i) := by
  have h := find_extent_loop_spec m inode offset (blocks_before m inode inode.extent_used) hfit
    inode.extent_used 0 (by rw [Nat.zero_add]) (by simp [blocks_before])
    (by rw [Nat.zero_add]; exact hoff)
  obtain ⟨e, _, he2, he3, he4, he5⟩ := h
  refine ⟨e, by omega, he3, he4, ?_, ?_, ?_⟩
  · rw [find_extent, int_of_id _ (by omega) (by omega)]
    have h0 : blocks_before m inode 0 = 0 := by simp [blocks_before]
    rw [h0] at he5
    simpa using he5
  · have hs := blocks_before_succ m inode e
    omega
  · intro j hj1 hj2
    rcases Nat.lt_trichotomy j e with hlt | heq | hgt
    · have := blocks_before_mono m inode (j + 1) e (by omega)
      omega
    · exact heq
    · have := blocks_before_mono m inode (e + 1) j (by omega)
      omega

/-- C32 (witness): offset 5000 in the file of `img_two_extents`, whose two
extents have one block each: extent 1, byte 904. -/
theorem C32_find_extent_locates_offset_witness :
    (∃ i, i < ((img_two_extents.getD fresh).inodes 1).extent_used ∧
      find_extent (img_two_extents.getD fresh).data ((img_two_extents.getD fresh).inodes 1)
          (5000 : Nat)
        = some (i, ((5000 - 4096 * blocks_before (img_two_extents.getD fresh).data
            ((img_two_extents.getD fresh).inodes 1) i : Nat) : Int))) ∧
    find_extent (img_two_extents.getD fresh).data ((img_two_extents.getD fresh).inodes 1)
        (5000 : Nat) = some (1, 904) :=
  ⟨(C32_find_extent_locates_offset (img_two_extents.getD fresh).data ((img_two_extents.getD fresh).inodes 1) 5000
      (by decide) (by decide)).imp fun _ h => ⟨h.1, h.2.2.2.1⟩,
   by decide⟩

/-- C33 (holds): the array `sort_extents` leaves is a permutation of the
array it was given and is in non-decreasing order of `count`. -/
theorem C33_sort_extents_sorted_permutation (free_extents : List a1fs_extent) :
    (sort_extents free_extents).Perm free_extents ∧
    List.Pairwise (fun a b => a.count ≤ b.count) (sort_extents free_extents) := by
  refine ⟨sort_loop_perm _ _ _ _, ?_⟩
  unfold sort_extents
  match free_extents with
  | [] =>
    show List.Pairwise _ (sort_loop 0 0 0 [])
    rw [sort_loop]
    exact List.Pairwise.nil
  | x :: l =>
    have h := sort_loop_sorted (x :: l).length ((x :: l).length - 1) 0 (x :: l) []
      (by simp) rfl (by simp) List.Pairwise.nil (fun _ _ _ hy => by cases hy)
    rw [List.append_nil] at h
    exact h

/-- C35 (fails on the code): `get_inode("/")` stores 0, `get_inode("/f")`
stores the inode 1 of the file and `get_inode("/x")`, whose component is
absent, stores the parent 0. After `create("/ ")` the component `" "` resolves
to the regular file with inode 1 (`a1fs_getattr` returns 0, slot 0 of the root
holds the entry), but `get_inode("/ ")` returns 0 and stores 0, the root. -/
theorem C35_get_inode_skips_space_named_entry :
    get_inode fresh (cstr "/") = some (0, some 0) ∧
    (img_f.map fun i => (get_inode i (cstr "/f"), get_inode i (cstr "/x")))
      = some (some (0, some 1), some (0, some 0)) ∧
    (img_space_file.map fun i =>
        ((a1fs_getattr i (cstr "/ ") stat_zero).1, (a1fs_getattr i (cstr "/ ") stat_zero).2.st_mode,
         dentry_ino i.data (dentry_addr 4096 0), get_inode i (cstr "/ ")))
      = some (0, reg_mode, 1, some (0, some 0)) := by
  decide

/-- C36 (fails on the code): in `img_hole_after_g` the file `"/f"` (inode 4)
has size 0 and no extent, the blocks 2, 3, 4, 7, 10 and 11 are free, and the
byte at offset 4095 of `"/g"`, the last byte of block 6, is `'Z'`.
`a1fs_truncate("/f", 4096)` returns 0; it takes block 2 for the extent list
and block 7 for the data, and the byte at offset 4095 of `"/g"` reads 0
afterwards: the zero-fill of the grow starts one byte before the new extent,
in block 6. -/
theorem C36_grow_zeroes_byte_before_extent :
    (img_hole_after_g.map fun i =>
        (get_inode_result i (cstr "/f"), (i.inodes 4).size, (i.inodes 4).extent_used))
      = some (some 4, 0, 0) ∧
    (img_hole_after_g.map fun i =>
        (get_inode_result i (cstr "/g"), (inode_extent i.data (i.inodes 2) 0).start,
         a1fs_read i (cstr "/g") [9] 4095)) = some (some 2, 24576, some (1, [90])) ∧
    (img_hole_after_g.map fun i => (List.range 12).map (bit_set i.data_bitmap))
      = some [true, true, false, false, false, true, true, false, true, true, false, false] ∧
    (img_hole_after_g.bind fun i => a1fs_truncate i (cstr "/f") 4096 clock0).map
        (fun r => (r.1, (r.2.inodes 4).extend_pt, (inode_extent r.2.data (r.2.inodes 4) 0).start,
           (inode_extent r.2.data (r.2.inodes 4) 0).count))
      = some (0, 8192, 28672, 1) ∧
    (img_hole_after_g.bind fun i => a1fs_truncate i (cstr "/f") 4096 clock0).map
        (fun r => (List.range 12).map (bit_set r.2.data_bitmap))
      = some [true, true, true, false, false, true, true, true, true, true, false, false] ∧
    (img_hole_after_g.bind fun i => a1fs_truncate i (cstr "/f") 4096 clock0).map
        (fun r => a1fs_read r.2 (cstr "/g") [9] 4095) = some (some (1, [0])) := by
  decide

/-- C37 (fails on the code): in `img_tombstone_root` the root has one extent
of one block (16 slots, from offset 4096) whose slot 0 is a tombstone; slot
16 would start at offset 8192, the extent-list block of `"/c"`, whose bytes
read as an entry with inode index 12288 and the name `"\x01"`. The root has
the single entry `"c"` and `a1fs_getattr("/\x01")` returns `-ENOENT`, but
`get_inode("/\x01")` returns 0 and stores 12288: the tombstone extends the
scan by one slot. -/
theorem C37_get_inode_scans_past_extent :
    (img_tombstone_root.map fun i =>
        ((i.inodes 0).extent_used, (inode_extent i.data (i.inodes 0) 0).start,
         entry_length (inode_extent i.data (i.inodes 0) 0),
         dentry_name_is i.data (dentry_addr 4096 0) tombstone)) = some (1, 4096, 16, true) ∧
    (img_tombstone_root.map fun i =>
        ((i.inodes 2).extend_pt, dentry_addr 4096 16, dentry_ino i.data (dentry_addr 4096 16),
         dentry_name_is i.data (dentry_addr 4096 16) [1])) = some (8192, 8192, 12288, true) ∧
    (img_tombstone_root.map fun i => a1fs_readdir i (cstr "/") 16)
      = some (some (0, [cstr "c"])) ∧
    (img_tombstone_root.map fun i => ((a1fs_getattr i [47, 1] stat_zero).1, get_inode i [47, 1]))
      = some (-ENOENT, some (0, some 12288)) := by
  decide

end A1fs
